import Mathlib

/-!
# eyeflow — shallow embedding and verification of spec claims

This file embeds, in Lean 4, the parts of the `eyeflow` repository
(`eyeflow-svm-node` and `eyeflow-svm-mcu`, Rust) that the frozen claims
are about, and proves or refutes each claim.

Conventions used throughout:

* Dynamically-typed JSON values (`serde_json::Value`) are modelled by the
  inductive type `Json`; JSON numbers are modelled as integers, which is
  enough for every claim treated here.
* External library behaviour (the serde JSON parser, the protobuf-generated
  `IrOpcode::try_from` numbering, SHA-256, Ed25519 signing, HTTP responses,
  the process environment, the system clock) is passed in as explicit
  function parameters ("oracles"), so all repository-level control flow is
  modelled exactly while foreign effects stay abstract.
* Machine integers that can overflow are reduced modulo `2 ^ 64` where the
  Rust code computes in `u64`.
-/

namespace Eyeflow

/-- JSON value (model of `serde_json::Value`; numbers restricted to `Int`). -/
inductive Json where
  | null : Json
  | bool (b : Bool) : Json
  | num (n : Int) : Json
  | str (s : String) : Json
  | arr (xs : List Json) : Json
  | obj (kvs : List (String × Json)) : Json
deriving Repr

mutual

/-- Structural Boolean equality on JSON values (model of `PartialEq` on
`serde_json::Value`, with objects compared as ordered association lists). -/
def Json.beq : Json → Json → Bool
  | .null, .null => true
  | .bool a, .bool b => a == b
  | .num a, .num b => a == b
  | .str a, .str b => a == b
  | .arr xs, .arr ys => Json.beqList xs ys
  | .obj xs, .obj ys => Json.beqObjList xs ys
  | _, _ => false

/-- Elementwise `Json.beq` on lists. -/
def Json.beqList : List Json → List Json → Bool
  | [], [] => true
  | x :: xs, y :: ys => Json.beq x y && Json.beqList xs ys
  | _, _ => false

/-- Elementwise `Json.beq` on object entry lists. -/
def Json.beqObjList : List (String × Json) → List (String × Json) → Bool
  | [], [] => true
  | (k1, v1) :: xs, (k2, v2) :: ys => k1 == k2 && Json.beq v1 v2 && Json.beqObjList xs ys
  | _, _ => false

end

namespace Json

/-- `Value::get` on an object (first binding wins, as in a JSON map). -/
def getField? : Json → String → Option Json
  | .obj kvs, k => (kvs.find? (fun p => p.1 == k)).map (·.2)
  | _, _ => none

/-- `Value::as_str`. -/
def asStr? : Json → Option String
  | .str s => some s
  | _ => none

/-- `Value::as_f64` restricted to the integer numbers of this model. -/
def asNum? : Json → Option Int
  | .num n => some n
  | _ => none

end Json

/-- Escape one character for JSON string output (subset of serde's escaping
that covers the characters appearing in this development). -/
def escapeChar (c : Char) : String :=
  if c = '"' then "\\\""
  else if c = '\\' then "\\\\"
  else if c = '\n' then "\\n"
  else if c = '\t' then "\\t"
  else if c = '\r' then "\\r"
  else String.singleton c

/-- Render a string as a quoted JSON string literal. -/
def renderString (s : String) : String :=
  "\"" ++ String.join (s.toList.map escapeChar) ++ "\""

mutual

/-- Model of `serde_json::Value::to_string` (compact JSON rendering; object
entries are rendered in the order of the modelled entry list). -/
def Json.render : Json → String
  | .null => "null"
  | .bool b => if b then "true" else "false"
  | .num n => toString n
  | .str s => renderString s
  | .arr xs => "[" ++ Json.renderList xs ++ "]"
  | .obj kvs => "\x7b" ++ Json.renderObjList kvs ++ "\x7d"

/-- Comma-separated rendering of array elements. -/
def Json.renderList : List Json → String
  | [] => ""
  | [x] => Json.render x
  | x :: xs => Json.render x ++ "," ++ Json.renderList xs

/-- Comma-separated rendering of object entries. -/
def Json.renderObjList : List (String × Json) → String
  | [] => ""
  | [(k, v)] => renderString k ++ ":" ++ Json.render v
  | (k, v) :: kvs => renderString k ++ ":" ++ Json.render v ++ "," ++ Json.renderObjList kvs

end

-- ── Edge executor data model (eyeflow-svm-node/src/svm.rs) ──────────────────

/-- Register file: `HashMap<i32, Value>` modelled as an association list where
the most recent insertion is found first (so insertion overwrites reads). -/
def Registers := List (Int × Json)

/-- Register read (`HashMap::get`). -/
def regsGet (regs : Registers) (k : Int) : Option Json :=
  (regs.find? (fun p => p.1 == k)).map (·.2)

/-- Register write (`HashMap::insert`, overwriting). -/
def regsInsert (regs : Registers) (k : Int) (v : Json) : Registers :=
  (k, v) :: regs

/-- `convergence_predicate` of `loop_operands` (proto `LoopOperands`). -/
structure ConvergencePredicate where
  registerIndex : Int
  operator : String
  valueJson : String

/-- `loop_operands` of an instruction. -/
structure LoopOperands where
  maxIterations : Int
  bodyStartIndex : Int
  exitIndex : Int
  convergencePredicate : Option ConvergencePredicate

/-- `priority_policy` of an instruction (only `max_wait_ms` is consulted by
the executor). -/
structure PriorityPolicy where
  maxWaitMs : Nat

/-- One IR instruction (the fields of proto `IrInstruction` that the executor
reads; `dispatch_metadata` is consumed only inside the effectful call
handlers, which are abstracted by `ExecEnv`). -/
structure Instruction where
  index : Int
  opcode : Int
  dest : Int
  src : List Int
  serviceId : String
  operandsJson : String
  targetInstruction : Int
  loopOperands : Option LoopOperands
  priorityPolicy : Option PriorityPolicy

/-- An IR: instruction map plus execution order
(`LlmIntermediateRepresentation.instructions` / `.instruction_order`). -/
structure Ir where
  instructions : List (Int × Instruction)
  order : List Int

/-- The executor's opcode enumeration (proto `IrOpcode`). -/
inductive IrOpcode where
  | loadResource | storeMemory | callService | callAction | callMcp
  | llmCall | transform | validate | aggregate | filter
  | branch | jump | loop | parallelSpawn | parallelMerge | ret
deriving Repr, DecidableEq

/-- External collaborators of the executor. `decodeOpcode` models the
prost-generated `IrOpcode::try_from` (the numeric mapping lives in
`proto/llm_ir.proto`, which is not part of `src/`); `parseJson` models
`serde_json::from_str`; the five call functions model the
`*_with_fallback` wrappers' I/O outcome for a given instruction and input;
`acquirePermit` models `acquire_resource_permit`. -/
structure ExecEnv where
  decodeOpcode : Int → Option IrOpcode
  parseJson : String → Option Json
  loadResource : Instruction → Except String Json
  callService : Instruction → Option Json → Except String Json
  callAction : Instruction → Option Json → Except String Json
  callMcp : Instruction → Option Json → Except String Json
  llmCall : Instruction → Option Json → Except String Json
  acquirePermit : String → Nat → Except String Unit

/-- `Svm::read_src`: look up `src[n]`, then the named register; either miss
is an error that fails the instruction. -/
def readSrc (instr : Instruction) (regs : Registers) (n : Nat) : Except String Json :=
  match instr.src[n]? with
  | none => .error ("instruction #" ++ toString instr.index ++ " has no src[" ++ toString n ++ "]")
  | some idx =>
    match regsGet regs idx with
    | none => .error ("register R" ++ toString idx ++ " is undefined")
    | some v => .ok v

/-- `Svm::resolve_ip`: linear search of the order list; absent targets map to
end-of-order. -/
def resolveIp (order : List Int) (target : Int) : Nat :=
  (order.findIdx? (fun i => i == target)).getD order.length

/-- Look up an instruction by index in the IR's instruction map. -/
def irGet (ir : Ir) (idx : Int) : Option Instruction :=
  (ir.instructions.find? (fun p => p.1 == idx)).map (·.2)

/-- `Svm::is_truthy`. -/
def isTruthy : Option Json → Bool
  | none => false
  | some .null => false
  | some (.bool b) => b
  | some (.num n) => n != 0
  | some (.str s) => !s.isEmpty
  | some (.arr a) => !a.isEmpty
  | some (.obj o) => !o.isEmpty

/-- `Svm::cmp_f64` (numeric comparison via coercion; false on non-numeric). -/
def cmpNum (a b : Json) (f : Int → Int → Bool) : Bool :=
  match a.asNum?, b.asNum? with
  | some av, some bv => f av bv
  | _, _ => false

/-- `Svm::eval_predicate`; the expected operand is parsed from JSON text
(`unwrap_or(Value::Null)`), unknown operators evaluate to false. -/
def evalPredicate (parseJson : String → Option Json) (val : Json)
    (operator : String) (expectedJson : String) : Bool :=
  let expected := (parseJson expectedJson).getD .null
  match operator with
  | "==" | "eq" => Json.beq val expected
  | "!=" | "ne" => !(Json.beq val expected)
  | "truthy" => isTruthy (some val)
  | "exists" => !(val matches .null)
  | "<" => cmpNum val expected (fun a b => a < b)
  | "<=" => cmpNum val expected (fun a b => a ≤ b)
  | ">" => cmpNum val expected (fun a b => a > b)
  | ">=" => cmpNum val expected (fun a b => a ≥ b)
  | _ => false

/-- `str::trim_start_matches("$.")` on the character list. -/
def stripDollarDotsAux : List Char → List Char
  | '$' :: '.' :: rest => stripDollarDotsAux rest
  | cs => cs

/-- `path.trim_start_matches("$.")`. -/
def stripDollarDots (s : String) : String :=
  String.mk (stripDollarDotsAux s.toList)

/-- `Svm::json_path_get`: walk dot-separated path segments through objects. -/
def jsonPathGet (root : Json) (path : String) : Json :=
  let rec go (cur : Json) : List String → Json
    | [] => cur
    | part :: rest =>
      match cur.getField? part with
      | some v => go v rest
      | none => .null
  go root ((stripDollarDots path).splitOn ".")

/-- `Svm::apply_transform`: dot-path projection if operands carry `path`,
`\x7b\x7bkey\x7d\x7d` template substitution if they carry `template`,
otherwise pass-through. -/
def applyTransform (src operands : Json) : Json :=
  match (operands.getField? "path").bind Json.asStr? with
  | some pathStr => jsonPathGet src pathStr
  | none =>
    match (operands.getField? "template").bind Json.asStr? with
    | some tmpl =>
      let obj := match src with
        | .obj kvs => kvs
        | _ => []
      .str (obj.foldl (fun out kv =>
        let placeholder := "\x7b\x7b" ++ kv.1 ++ "\x7d\x7d"
        let valStr := match kv.2.asStr? with
          | some s => s
          | none => Json.render kv.2
        out.replace placeholder valStr) tmpl)
    | none => src

-- ── The LOOP arm's inner scan (Svm::execute, IrOpcode::Loop) ─────────────────

/-- The inner loop of the `LOOP` arm of `Svm::execute`. Per Rust iteration it:
breaks when `iter ≥ maxIter`; breaks when the convergence predicate holds;
looks up the body instruction at `order[bodyIp]` (errors when out of bounds or
missing) and breaks when it decodes to `RETURN`; then advances `bodyIp`,
wrapping to `bodyStart` and incrementing `iter` once `bodyIp` reaches
`exitIp`. Note that the Rust code only inspects the body instruction's
opcode — it never dispatches the body instruction, so the register file is
not consulted for anything but the predicate and never modified. -/
def loopScan (env : ExecEnv) (ir : Ir) (regs : Registers) (lo : LoopOperands)
    (maxIter bodyStart exitIp : Nat) (iter bodyIp : Nat) : Except String Unit :=
  if _h1 : maxIter ≤ iter then .ok ()
  else
    let converged := match lo.convergencePredicate with
      | some pred =>
        let regVal := (regsGet regs pred.registerIndex).getD .null
        evalPredicate env.parseJson regVal pred.operator pred.valueJson
      | none => false
    if converged then .ok ()
    else
      match ir.order.get? bodyIp with
      | none => .error "LOOP body_ip out of bounds"
      | some bodyIdx =>
        match irGet ir bodyIdx with
        | none => .error ("LOOP body instruction #" ++ toString bodyIdx ++ " missing")
        | some bodyInstr =>
          if (env.decodeOpcode bodyInstr.opcode).getD .ret == .ret then .ok ()
          else if _h2 : exitIp ≤ bodyIp + 1 then
            loopScan env ir regs lo maxIter bodyStart exitIp (iter + 1) bodyStart
          else
            loopScan env ir regs lo maxIter bodyStart exitIp iter (bodyIp + 1)
termination_by (maxIter - iter, exitIp - bodyIp)
decreasing_by
  · exact Prod.Lex.left _ _ (by omega)
  · exact Prod.Lex.right _ (by omega)

-- ── PARALLEL_SPAWN forward scan ──────────────────────────────────────────────

/-- The forward scan of the `PARALLEL_SPAWN` arm: starting at `scanIp` with
the given nesting depth, collect every `LLM_CALL` instruction, track
SPAWN/MERGE nesting, and return the collected instructions together with the
ip of the matching MERGE (`none` when the order list ends first, in which
case the Rust code keeps its initial `merge_ip = ip + 1`). -/
def spawnScanGo (env : ExecEnv) (ir : Ir) (scanIp : Nat) (nesting : Nat)
    (acc : List Instruction) : List Instruction × Option Nat :=
  if h : scanIp < ir.order.length then
    let scanIdx := ir.order.get ⟨scanIp, h⟩
    match irGet ir scanIdx with
    | some scanInstr =>
      match (env.decodeOpcode scanInstr.opcode).getD .ret with
      | .parallelSpawn => spawnScanGo env ir (scanIp + 1) (nesting + 1) acc
      | .parallelMerge =>
        if nesting = 1 then (acc, some scanIp)
        else spawnScanGo env ir (scanIp + 1) (nesting - 1) acc
      | .llmCall => spawnScanGo env ir (scanIp + 1) nesting (acc ++ [scanInstr])
      | _ => spawnScanGo env ir (scanIp + 1) nesting acc
    | none => spawnScanGo env ir (scanIp + 1) nesting acc
  else (acc, none)
termination_by ir.order.length - scanIp

-- ── The executor loop (Svm::execute) ─────────────────────────────────────────

/-- Outcome of `Svm::execute`: final registers and the sequence of audit
event types appended (in program order), an executor error, or exhausted
fuel (the Rust `while` loop has no fuel; all theorems below supply enough). -/
inductive ExecOut where
  | ok (regs : Registers) (auditLog : List String)
  | err (msg : String)
  | fuelOut

/-- The dispatch loop of `Svm::execute`. One fuel unit is one trip around
the Rust `while ip < order.len()` loop. `auditLog` records the event type of
each `audit.append` call the executor makes, in order. -/
def execLoop (env : ExecEnv) (ir : Ir) :
    Nat → Registers → List String → Nat → ExecOut
  | 0, _, _, _ => .fuelOut
  | fuel + 1, regs, log, ip =>
    if h : ip < ir.order.length then
      let idx := ir.order.get ⟨ip, h⟩
      match irGet ir idx with
      | none => .err ("missing instruction #" ++ toString idx)
      | some instr =>
        match (env.decodeOpcode instr.opcode).getD .ret with
        | .loadResource =>
          match env.loadResource instr with
          | .error e => .err e
          | .ok v =>
            execLoop env ir fuel (regsInsert regs instr.dest v)
              (log ++ ["LOAD_RESOURCE"]) (ip + 1)
        | .storeMemory =>
          match readSrc instr regs 0 with
          | .error e => .err e
          | .ok v => execLoop env ir fuel (regsInsert regs instr.dest v) log (ip + 1)
        | .callService =>
          let permit : Except String Unit :=
            match instr.priorityPolicy with
            | some pp =>
              let key := if instr.serviceId ≠ "" then instr.serviceId else "service_default"
              env.acquirePermit key pp.maxWaitMs
            | none => .ok ()
          match permit with
          | .error e => .err e
          | .ok _ =>
            let input := (readSrc instr regs 0).toOption
            match env.callService instr input with
            | .error e => .err e
            | .ok v =>
              execLoop env ir fuel (regsInsert regs instr.dest v)
                (log ++ ["CALL_SERVICE"]) (ip + 1)
        | .callAction =>
          let permit : Except String Unit :=
            match instr.priorityPolicy with
            | some pp =>
              let key := if instr.serviceId ≠ "" then instr.serviceId else "action_default"
              env.acquirePermit key pp.maxWaitMs
            | none => .ok ()
          match permit with
          | .error e => .err e
          | .ok _ =>
            let input := (readSrc instr regs 0).toOption
            match env.callAction instr input with
            | .error e => .err e
            | .ok v =>
              execLoop env ir fuel (regsInsert regs instr.dest v)
                (log ++ ["CALL_ACTION"]) (ip + 1)
        | .callMcp =>
          let input := (readSrc instr regs 0).toOption
          match env.callMcp instr input with
          | .error e => .err e
          | .ok v => execLoop env ir fuel (regsInsert regs instr.dest v) log (ip + 1)
        | .llmCall =>
          let input := (readSrc instr regs 0).toOption
          match env.llmCall instr input with
          | .error e => .err e
          | .ok v =>
            execLoop env ir fuel (regsInsert regs instr.dest v)
              (log ++ ["LLM_CALL"]) (ip + 1)
        | .branch =>
          let cond := (readSrc instr regs 0).toOption
          if isTruthy cond then
            execLoop env ir fuel regs log (resolveIp ir.order instr.targetInstruction)
          else
            execLoop env ir fuel regs log (ip + 1)
        | .jump =>
          execLoop env ir fuel regs log (resolveIp ir.order instr.targetInstruction)
        | .loop =>
          match instr.loopOperands with
          | none => .err ("LOOP instruction #" ++ toString idx ++ " missing loop_operands")
          | some lo =>
            let maxIter := (max lo.maxIterations 1).toNat
            let bodyStart := resolveIp ir.order lo.bodyStartIndex
            let exitIp := resolveIp ir.order lo.exitIndex
            match loopScan env ir regs lo maxIter bodyStart exitIp 0 bodyStart with
            | .error e => .err e
            | .ok _ => execLoop env ir fuel regs log exitIp
        | .ret => .ok regs log
        | .transform =>
          let src := (readSrc instr regs 0).toOption.getD .null
          let operands := (env.parseJson instr.operandsJson).getD .null
          execLoop env ir fuel (regsInsert regs instr.dest (applyTransform src operands))
            log (ip + 1)
        | .validate =>
          let src := (readSrc instr regs 0).toOption.getD .null
          execLoop env ir fuel (regsInsert regs instr.dest src) log (ip + 1)
        | .aggregate =>
          let src := (readSrc instr regs 0).toOption.getD .null
          execLoop env ir fuel (regsInsert regs instr.dest src) log (ip + 1)
        | .filter =>
          let src := (readSrc instr regs 0).toOption.getD .null
          execLoop env ir fuel (regsInsert regs instr.dest src) log (ip + 1)
        | .parallelSpawn =>
          let scanned := spawnScanGo env ir (ip + 1) 1 []
          let mergeIp := scanned.2.getD (ip + 1)
          let results := scanned.1.map (fun pi =>
            (pi.dest, env.llmCall pi ((readSrc pi regs 0).toOption)))
          let regs' := results.foldl (fun r dr =>
            match dr.2 with
            | .ok v => regsInsert r dr.1 v
            | .error _ => regsInsert r dr.1 .null) regs
          execLoop env ir fuel regs' log (mergeIp + 1)
        | .parallelMerge =>
          execLoop env ir fuel regs log (ip + 1)
    else .ok regs log

/-- `Svm::execute`: run the dispatch loop from ip 0 with empty registers. -/
def executeIr (env : ExecEnv) (ir : Ir) (fuel : Nat) : ExecOut :=
  execLoop env ir fuel [] [] 0

-- ── Svm::retry_backoff (eyeflow-svm-node/src/svm.rs) ─────────────────────────

/-- The modulus of Rust `u64` arithmetic. -/
def U64 : Nat := 2 ^ 64

/-- Sleep issued before attempt `attempt` (only for `attempt > 1`):
`base_ms * (1u64 << (attempt - 2).min(6))`, wrapping in `u64`. -/
def backoffWait (baseMs attempt : Nat) : Nat :=
  (baseMs * 2 ^ (min (attempt - 2) 6)) % U64

/-- The `for attempt in 1..=max` loop of `Svm::retry_backoff`. `f a` is the
outcome of the `a`-th invocation of the wrapped operation. Returns the
result, the number of invocations performed, and the total milliseconds
slept. -/
def retryGo (f : Nat → Except String Json) (baseMs maxA : Nat)
    (attempt : Nat) (lastErr : Option String) (calls sleepMs : Nat) :
    Except String Json × Nat × Nat :=
  if _h : maxA < attempt then
    (.error (lastErr.getD "retry exhausted"), calls, sleepMs)
  else
    let sleepMs' := if 1 < attempt then sleepMs + backoffWait baseMs attempt else sleepMs
    match f attempt with
    | .ok v => (.ok v, calls + 1, sleepMs')
    | .error e => retryGo f baseMs maxA (attempt + 1) (some e) (calls + 1) sleepMs'
termination_by maxA + 1 - attempt

/-- `Svm::retry_backoff` with `cfg.max_attempts = maxAttempts` (clamped to at
least 1 by the source) and `cfg.backoff_base_ms = baseMs`. -/
def retryBackoff (maxAttempts baseMs : Nat) (f : Nat → Except String Json) :
    Except String Json × Nat × Nat :=
  retryGo f baseMs (max maxAttempts 1) 1 none 0 0

-- ── Audit chain (eyeflow-svm-node/src/audit.rs) ──────────────────────────────

/-- `AuditEvent` of audit.rs. -/
structure AuditEvent where
  eventId : String
  timestamp : String
  nodeId : String
  workflowId : String
  workflowVersion : Option Nat
  instructionId : Option String
  eventType : String
  inputHash : String
  outputHash : String
  durationMs : Nat
  details : Option Json
  previousEventHash : String
  selfHash : String
  signature : String
  publicKeyHex : String

/-- The canonical body of an audit event: exactly the fields hashed into
`self_hash` (the event minus `self_hash`, `signature`, `public_key_hex`).
`details` is the JSON value as serialized (an absent `details` serializes as
`null`, which is why the field is `Json` and not `Option Json`). -/
structure AuditBody where
  eventId : String
  timestamp : String
  nodeId : String
  workflowId : String
  workflowVersion : Option Nat
  instructionId : Option String
  eventType : String
  inputHash : String
  outputHash : String
  durationMs : Nat
  details : Json
  previousEventHash : String

/-- Cryptographic/serialization oracles of the audit chain. `hashBody b`
models `sha256_str(body.to_string())` for the canonical body JSON;
`hashEvent e` models `sha256_of` (SHA-256 over the serde serialization of
the full event, signature and public key included); `hashJson` models
`sha256_json`; `sign` models hex-encoded Ed25519 signing with the chain's
key. -/
structure HashEnv where
  hashBody : AuditBody → String
  hashEvent : AuditEvent → String
  hashJson : Option Json → String
  sign : String → String

/-- `"0".repeat(64)`. -/
def zeros64 : String := String.mk (List.replicate 64 '0')

/-- The caller-supplied arguments of one `AuditChain::append` call, with the
UUID and timestamp the call drew from its oracles. -/
structure AppendArgs where
  eventId : String
  timestamp : String
  workflowId : String
  workflowVersion : Option Nat
  instructionId : Option String
  eventType : String
  input : Option Json
  output : Option Json
  durationMs : Nat
  details : Option Json

/-- The canonical body assembled by `append`. -/
def mkBody (he : HashEnv) (nodeId prevHash : String) (a : AppendArgs) : AuditBody :=
  { eventId := a.eventId, timestamp := a.timestamp, nodeId := nodeId,
    workflowId := a.workflowId, workflowVersion := a.workflowVersion,
    instructionId := a.instructionId, eventType := a.eventType,
    inputHash := he.hashJson a.input, outputHash := he.hashJson a.output,
    durationMs := a.durationMs, details := a.details.getD .null,
    previousEventHash := prevHash }

/-- The completed, signed event `append` pushes: the body's fields plus
`self_hash` over the body, a signature over `self_hash`, and the public key.
(`details` becomes `Some` of the serialized value, mirroring
`body["details"].clone().into()`.) -/
def eventOfBody (he : HashEnv) (pubHex : String) (b : AuditBody) : AuditEvent :=
  let selfHash := he.hashBody b
  { eventId := b.eventId, timestamp := b.timestamp, nodeId := b.nodeId,
    workflowId := b.workflowId, workflowVersion := b.workflowVersion,
    instructionId := b.instructionId, eventType := b.eventType,
    inputHash := b.inputHash, outputHash := b.outputHash,
    durationMs := b.durationMs, details := some b.details,
    previousEventHash := b.previousEventHash,
    selfHash := selfHash, signature := he.sign selfHash, publicKeyHex := pubHex }

/-- `AuditChain::append`: link to the last event (or 64 zeros), build the
body, hash, sign, push. -/
def appendEvent (he : HashEnv) (nodeId pubHex : String)
    (chain : List AuditEvent) (a : AppendArgs) : List AuditEvent :=
  let prevHash := match chain.getLast? with
    | some prev => he.hashEvent prev
    | none => zeros64
  chain ++ [eventOfBody he pubHex (mkBody he nodeId prevHash a)]

/-- The chain produced by a sequence of `append` calls on a fresh chain. -/
def chainOf (he : HashEnv) (nodeId pubHex : String) (args : List AppendArgs) :
    List AuditEvent :=
  args.foldl (appendEvent he nodeId pubHex) []

/-- The body `verify` re-assembles from a stored event (an absent `details`
serializes as `null`, exactly like the `Some null` that `append` stores). -/
def rebuildBody (ev : AuditEvent) : AuditBody :=
  { eventId := ev.eventId, timestamp := ev.timestamp, nodeId := ev.nodeId,
    workflowId := ev.workflowId, workflowVersion := ev.workflowVersion,
    instructionId := ev.instructionId, eventType := ev.eventType,
    inputHash := ev.inputHash, outputHash := ev.outputHash,
    durationMs := ev.durationMs, details := ev.details.getD .null,
    previousEventHash := ev.previousEventHash }

/-- Outcome of `AuditChain::verify`: the chain length, or the position of the
first failing check (self-hash mismatch, or broken linkage). -/
inductive VerifyResult where
  | ok (len : Nat)
  | selfHashMismatch (i : Nat)
  | linkageBroken (i : Nat)
deriving Repr, DecidableEq

/-- The verification walk: at each position check `self_hash` against the
re-hashed body, then (for positions after the first) the linkage hash
against the previous stored event. -/
def verifyFrom (he : HashEnv) : Option AuditEvent → Nat → List AuditEvent → VerifyResult
  | _, i, [] => .ok i
  | prev, i, ev :: rest =>
    if he.hashBody (rebuildBody ev) ≠ ev.selfHash then .selfHashMismatch i
    else
      match prev with
      | some p =>
        if ev.previousEventHash ≠ he.hashEvent p then .linkageBroken i
        else verifyFrom he (some ev) (i + 1) rest
      | none => verifyFrom he (some ev) (i + 1) rest

/-- `AuditChain::verify`. -/
def verifyChain (he : HashEnv) (chain : List AuditEvent) : VerifyResult :=
  verifyFrom he none 0 chain

/-- The state `AuditChain::new` constructs. -/
structure ChainState where
  nodeId : String
  chain : List AuditEvent
  signingKey : List Nat
  verifyingKeyHex : String

/-- `AuditChain::new`. `osRngKey` is the key-byte string drawn from `OsRng`
by `SigningKey::generate`, and `derivePubHex` models deriving the hex
verifying key from a signing key (ed25519-dalek). The source matches on
`private_key_pem` but both arms generate a fresh ephemeral key and ignore
the PEM bytes (PEM loading is an unimplemented TODO). -/
def auditChainNew (derivePubHex : List Nat → String) (nodeId : String)
    (privateKeyPem : Option String) (osRngKey : List Nat) : ChainState :=
  match privateKeyPem with
  | some _pem =>
    { nodeId := nodeId, chain := [], signingKey := osRngKey,
      verifyingKeyHex := derivePubHex osRngKey }
  | none =>
    { nodeId := nodeId, chain := [], signingKey := osRngKey,
      verifyingKeyHex := derivePubHex osRngKey }

-- ── Node client: binary messages, version gate (eyeflow-svm-node/src/node.rs) ─

/-- Proto `SignedIRArtifact` (bytes as `List Nat`). -/
structure SignedIrArtifact where
  payload : List Nat
  version : Nat
  payloadChecksum : String
  publicKeyPem : String
  signature : String

/-- Proto `IRDistributionMessage`. -/
structure IrDistributionMessage where
  artifact : Option SignedIrArtifact
  workflowId : String

/-- Observable side effects of `NodeClient::handle_binary_message`, in order:
the best-effort security-alert POST, the executor run, and the binary
result frame sent back over the socket. -/
inductive NodeAction where
  | postSecurityAlert (nodeMajor artifactMajor : Nat)
  | runExecutor
  | sendBinaryResult (status : String)
deriving Repr, DecidableEq

/-- Slice execution result as far as the handler observes it. -/
structure SliceResult where
  status : String
  error : String

/-- Oracles of the node handler: protobuf decoding, SHA-256, and
`NodeClient::execute_ir` (which catches executor failures internally and
then returns a result with status `"FAILED"`, never an error). -/
structure NodeEnv where
  decodeDistMsg : List Nat → Option IrDistributionMessage
  sha256Hex : List Nat → String
  decodeIrPayload : List Nat → Option Ir
  executeSlice : Ir → SliceResult

/-- `NodeClient::verify_artifact_signature`: the payload's SHA-256 must match
a non-empty declared checksum; an empty public key or signature skips
verification with a warning, and full PEM verification is a TODO in the
source, so every other case succeeds. -/
def verifyArtifactSignature (env : NodeEnv) (a : SignedIrArtifact) : Except String Unit :=
  let actual := env.sha256Hex a.payload
  if a.payloadChecksum ≠ "" ∧ actual ≠ a.payloadChecksum then
    .error "IR artifact checksum mismatch"
  else .ok ()

/-- `NodeClient::handle_binary_message`: decode the distribution message,
apply the IR format version gate (`0` accepted with a warning; any other
major different from the node's configured major posts a security alert and
returns an error without executing), then verify the artifact, decode the
IR, execute it and send the binary result frame. Returns the ordered side
effects together with the handler's `Result`. -/
def handleBinaryMessage (env : NodeEnv) (cfgMajor : Nat) (data : List Nat) :
    List NodeAction × Except String Unit :=
  match env.decodeDistMsg data with
  | none => ([], .error "proto decode error")
  | some distMsg =>
    match distMsg.artifact with
    | none => ([], .error "IRDistributionMessage.artifact is null")
    | some artifact =>
      if artifact.version ≠ 0 ∧ artifact.version ≠ cfgMajor then
        ([.postSecurityAlert cfgMajor artifact.version],
         .error "IR major version mismatch")
      else
        match verifyArtifactSignature env artifact with
        | .error e => ([], .error e)
        | .ok _ =>
          match env.decodeIrPayload artifact.payload with
          | none => ([], .error "IR proto decode error")
          | some ir =>
            let res := env.executeSlice ir
            ([.runExecutor, .sendBinaryResult res.status], .ok ())

/-- The `Message::Binary` arm of `NodeClient::connect_and_run`'s message
loop: the handler's error is only logged (`warn!`) — the session continues
and nothing else is sent — so the loop's observable effect is exactly the
handler's action list. -/
def binaryMessageStep (env : NodeEnv) (cfgMajor : Nat) (data : List Nat) :
    List NodeAction :=
  (handleBinaryMessage env cfgMajor data).1

-- ── Offline buffer (eyeflow-svm-node/src/offline.rs) ─────────────────────────

/-- `OfflineBuffer::push`: when the queue has reached `max_size`, pop the
oldest (front) entry, then push the new one at the back. -/
def obPush {Ev : Type} (maxSize : Nat) (q : List Ev) (e : Ev) : List Ev :=
  let q' := if maxSize ≤ q.length then q.tail else q
  q' ++ [e]

/-- A sequence of enqueues. -/
def obPushMany {Ev : Type} (maxSize : Nat) (q : List Ev) (es : List Ev) : List Ev :=
  es.foldl (obPush maxSize) q

/-- NDJSON line codec for buffered envelopes (serde serialization of
`BufferedEvent`, abstracted). -/
structure EvCodec (Ev : Type) where
  encode : Ev → String
  decode : String → Option Ev

/-- `OfflineBuffer::persist`: the NDJSON file contents, one serialized
envelope per line (the empty queue truncates the file to no lines). -/
def persistLines {Ev : Type} (c : EvCodec Ev) (q : List Ev) : List String :=
  q.map c.encode

/-- ASCII whitespace (the subset of Rust's `char::is_whitespace` relevant to
NDJSON lines). -/
def isWs (c : Char) : Bool :=
  c = ' ' || c = '\t' || c = '\n' || c = '\r'

/-- Model of Rust `str::trim`: strip leading and trailing whitespace. -/
def rustTrim (s : String) : String :=
  String.mk (((s.toList.dropWhile isWs).reverse.dropWhile isWs).reverse)

/-- The line loop of `OfflineBuffer::load`: trim, skip empty lines, skip
unparseable lines with a warning, and stop as soon as the queue has reached
`max_size` (checked after each non-empty line, parsed or not). -/
def loadGo {Ev : Type} (c : EvCodec Ev) (maxSize : Nat) (acc : List Ev) :
    List String → List Ev
  | [] => acc
  | l :: ls =>
    let t := rustTrim l
    if t = "" then loadGo c maxSize acc ls
    else
      match c.decode t with
      | some e =>
        let acc' := acc ++ [e]
        if maxSize ≤ acc'.length then acc' else loadGo c maxSize acc' ls
      | none =>
        if maxSize ≤ acc.length then acc else loadGo c maxSize acc ls

/-- `OfflineBuffer::load` on a fresh (empty) buffer. -/
def loadLines {Ev : Type} (c : EvCodec Ev) (maxSize : Nat) (lines : List String) :
    List Ev :=
  loadGo c maxSize [] lines

-- ── Secret resolver (eyeflow-svm-node/src/vault.rs) ──────────────────────────

/-- `SecretSource` of vault.rs. -/
inductive SecretSource where
  | hashicorpVault
  | envVar
  | rawEnvKey
deriving Repr, DecidableEq

/-- Oracles of the resolver: the process environment and the outcome of
`fetch_from_hashicorp` for a path (HTTP request, KV v2 response parsing and
key projection all happen behind this call). -/
structure VaultEnv where
  procEnv : String → Option String
  hashicorp : String → Except String String

/-- The mutable state of a `VaultClient`: configuration and the TTL cache
(expiry instants modelled as ticks of a monotone clock). -/
structure VaultState where
  vaultAddr : Option String
  vaultToken : Option String
  cache : List (String × String × Nat)
  cacheTtl : Nat

/-- ASCII uppercase of one character (model of `str::to_uppercase` on the
ASCII paths the resolver sees). -/
def asciiUpper (c : Char) : Char :=
  if 'a' ≤ c ∧ c ≤ 'z' then Char.ofNat (c.toNat - 32) else c

/-- `str::to_uppercase` (ASCII model). -/
def strUpper (s : String) : String :=
  String.mk (s.toList.map asciiUpper)

/-- Rust `str::replace(from_char, to)` for a single-character pattern and a
single-character replacement. -/
def replaceChar (c r : Char) (s : String) : String :=
  String.mk (s.toList.map (fun x => if x = c then r else x))

/-- `path_to_env_key`: uppercase and normalize `/`, `-` and `.` to `_`,
prefixed with `VAULT_SECRET_`. -/
def pathToEnvKey (path : String) : String :=
  "VAULT_SECRET_" ++ replaceChar '.' '_' (replaceChar '-' '_' (replaceChar '/' '_' (strUpper path)))

/-- The raw env key of `fetch_secret` step 4: uppercase with `/` and `-`
replaced by `_` — the source does not replace `.` here. -/
def rawEnvKeyOf (path : String) : String :=
  replaceChar '-' '_' (replaceChar '/' '_' (strUpper path))

/-- Cache lookup (`HashMap::get`). -/
def cacheGet (cache : List (String × String × Nat)) (path : String) :
    Option (String × Nat) :=
  (cache.find? (fun p => p.1 == path)).map (·.2)

/-- Cache removal (`HashMap::remove`). -/
def cacheRemove (cache : List (String × String × Nat)) (path : String) :
    List (String × String × Nat) :=
  cache.filter (fun p => p.1 != path)

/-- Cache insertion (`HashMap::insert`, overwriting). -/
def cacheInsert (cache : List (String × String × Nat)) (path value : String)
    (expiresAt : Nat) : List (String × String × Nat) :=
  (path, value, expiresAt) :: cacheRemove cache path

/-- Steps 2–4 of `VaultClient::fetch_secret`: HashiCorp KV v2 (attempted
only when both address and token are configured; a success populates the
cache), then the `VAULT_SECRET_` env var, then the raw env key, else a
not-found error. -/
def fetchSecretTail (ve : VaultEnv) (now : Nat) (st : VaultState) (path : String) :
    Except String (String × SecretSource) × VaultState :=
  let hashicorpHit : Option String :=
    match st.vaultAddr, st.vaultToken with
    | some _, some _ =>
      match ve.hashicorp path with
      | .ok v => some v
      | .error _ => none
    | _, _ => none
  match hashicorpHit with
  | some v =>
    (.ok (v, .hashicorpVault),
     { st with cache := cacheInsert st.cache path v (now + st.cacheTtl) })
  | none =>
    match ve.procEnv (pathToEnvKey path) with
    | some v => (.ok (v, .envVar), st)
    | none =>
      match ve.procEnv (rawEnvKeyOf path) with
      | some v => (.ok (v, .rawEnvKey), st)
      | none => (.error ("secret not found: " ++ path), st)

/-- `VaultClient::fetch_secret`: TTL cache first (an unexpired hit returns
immediately and an expired entry is evicted), then the fallback chain of
`fetchSecretTail`. -/
def fetchSecret (ve : VaultEnv) (now : Nat) (st : VaultState) (path : String) :
    Except String (String × SecretSource) × VaultState :=
  match cacheGet st.cache path with
  | some ve2 =>
    if now < ve2.2 then (.ok (ve2.1, .hashicorpVault), st)
    else fetchSecretTail ve now { st with cache := cacheRemove st.cache path } path
  | none => fetchSecretTail ve now st path

-- ── MCU executor (eyeflow-svm-mcu/src/svm.rs, offline.rs) ────────────────────

/-- `MicroSvm` state: 8 × u16 registers, the flag byte, and the bounded
output buffer (`heapless::Vec<u8, 512>`). -/
structure McuState where
  r : List Nat
  flags : Nat
  output : List Nat

/-- The MCU offline ring (`heapless::Deque<OfflineEntry, 128>` plus the
dropped counter and link flag); entries are (type, flags, value). -/
structure McuOffline where
  entries : List (Nat × Nat × Nat)
  dropped : Nat
  linkUp : Bool

/-- `OfflineBuffer::push` (MCU): push-back, dropping the oldest entry and
counting it when the 128-entry ring is full. -/
def mcuOfflinePush (ob : McuOffline) (e : Nat × Nat × Nat) : McuOffline :=
  if ob.entries.length < 128 then { ob with entries := ob.entries ++ [e] }
  else { ob with entries := ob.entries.tail ++ [e], dropped := ob.dropped + 1 }

/-- `SvmResult` of the MCU executor, plus a fuel marker for the shallow
embedding of its unbounded `while` loop. -/
inductive McuResult where
  | ok (outputLen : Nat)
  | validationError (code : Nat)
  | runtimeError (code : Nat)
  | offlineQueued (count : Nat)
  | fuelOut
deriving Repr, DecidableEq

/-- `dispatch_service`: the compile-time service table (stubbed hardware
reads in the source; `READ_TIMESTAMP` wraps the millisecond clock to u16). -/
def dispatchService (nowMillis svcId _input : Nat) : Except Nat Nat :=
  match svcId with
  | 0 => .ok 0
  | 1 => .ok 2048
  | 2 => .ok 1500
  | 3 => .ok (nowMillis % 65536)
  | _ => .error 0xFF

/-- `dispatch_action`: the compile-time action table; `REPORT` (0x02)
enqueues a report entry into the offline ring, unknown ids fail. -/
def dispatchAction (ob : McuOffline) (actionId value : Nat) (_args : List Nat) :
    Except Nat Unit × McuOffline :=
  match actionId with
  | 0 => (.ok (), ob)
  | 1 => (.ok (), ob)
  | 2 => (.ok (), mcuOfflinePush ob (1, 0, value))
  | 3 => (.ok (), ob)
  | _ => (.error 0xFF, ob)

/-- Byte access into the payload (validated in range before use). -/
def byteAt (payload : List Nat) (i : Nat) : Nat := payload.getD i 0

/-- `Registers::set_zero` on the flag byte (bit 0). -/
def setZeroFlag (flags : Nat) (v : Bool) : Nat :=
  if v then flags ||| 1 else flags &&& 0xFE

/-- `Registers::set_error` on the flag byte (bit 2). -/
def setErrorFlag (flags : Nat) (v : Bool) : Nat :=
  if v then flags ||| 4 else flags &&& 0xFB

/-- `Registers::zero_flag`. -/
def zeroFlag (flags : Nat) : Bool := flags &&& 1 ≠ 0

/-- `Registers::error_flag`. -/
def errorFlag (flags : Nat) : Bool := flags &&& 4 ≠ 0

/-- Register read `self.regs.r[i]`. -/
def mcuRegGet (st : McuState) (i : Nat) : Nat := st.r.getD i 0

/-- One `heapless::Vec::push` on the output buffer: returns the new buffer
and whether the push failed (buffer full). -/
def outPush (out : List Nat) (b : Nat) : List Nat × Bool :=
  if out.length < 512 then (out ++ [b], false) else (out, true)

/-- The `while pc < num_instr` loop of `MicroSvm::execute`. One fuel unit is
one loop trip; every claim below is settled before the loop or with enough
fuel. -/
def mcuExecLoop (nowMillis : Nat) (payload : List Nat) (numInstr : Nat) :
    Nat → Nat → Nat → McuState → McuOffline → McuResult × McuState × McuOffline
  | 0, _, _, st, ob => (.fuelOut, st, ob)
  | fuel + 1, pc, offlineCount, st, ob =>
    if pc < numInstr then
      let off := 8 + pc * 8
      match byteAt payload off with
      | 1 =>
        let svcId := byteAt payload (off + 1)
        let inReg := byteAt payload (off + 2) &&& 7
        let outReg := byteAt payload (off + 3) &&& 7
        if 64 ≤ svcId then
          mcuExecLoop nowMillis payload numInstr fuel (pc + 1) offlineCount
            { st with flags := setErrorFlag st.flags true } ob
        else
          let inputVal := mcuRegGet st inReg
          match dispatchService nowMillis svcId inputVal with
          | .ok result =>
            mcuExecLoop nowMillis payload numInstr fuel (pc + 1) offlineCount
              { st with r := st.r.set outReg result,
                        flags := setErrorFlag (setZeroFlag st.flags (result == 0)) false } ob
          | .error _ =>
            mcuExecLoop nowMillis payload numInstr fuel (pc + 1) (offlineCount + 1)
              { st with flags := setErrorFlag st.flags true } ob
      | 2 =>
        let actionId := byteAt payload (off + 1)
        let valReg := byteAt payload (off + 2) &&& 7
        let value := mcuRegGet st valReg
        let args := [byteAt payload (off + 3), byteAt payload (off + 4),
                     byteAt payload (off + 5), byteAt payload (off + 6),
                     byteAt payload (off + 7)]
        match dispatchAction ob actionId value args with
        | (.ok _, ob') =>
          mcuExecLoop nowMillis payload numInstr fuel (pc + 1) offlineCount
            { st with flags := setErrorFlag st.flags false } ob'
        | (.error _, ob') =>
          mcuExecLoop nowMillis payload numInstr fuel (pc + 1) (offlineCount + 1)
            { st with flags := setErrorFlag st.flags true } ob'
      | 3 =>
        let condition := byteAt payload (off + 1)
        let targetPc := 256 * byteAt payload (off + 2) + byteAt payload (off + 3)
        let take := match condition with
          | 0 => zeroFlag st.flags
          | 1 => !zeroFlag st.flags
          | 2 => errorFlag st.flags
          | 3 => !errorFlag st.flags
          | _ => false
        if take then
          if numInstr ≤ targetPc then (.runtimeError 0x10, st, ob)
          else mcuExecLoop nowMillis payload numInstr fuel targetPc offlineCount st ob
        else mcuExecLoop nowMillis payload numInstr fuel (pc + 1) offlineCount st ob
      | 4 =>
        let outReg := byteAt payload (off + 1) &&& 7
        let result := mcuRegGet st outReg
        let p1 := outPush st.output (result / 256 % 256)
        let out2 := if p1.2 then p1.1 else (outPush p1.1 (result % 256)).1
        let st' := { st with output := out2 }
        if 0 < offlineCount then (.offlineQueued offlineCount, st', ob)
        else (.ok st'.output.length, st', ob)
      | _ => (.runtimeError 0x20, st, ob)
    else
      if 0 < offlineCount then (.offlineQueued offlineCount, st, ob)
      else (.ok st.output.length, st, ob)

/-- `MicroSvm::execute`: header validation (length, magic, version, declared
instruction count vs. buffer length, each with its distinct error code; the
missing no-heap flag bit is a warning only), then the instruction loop. -/
def mcuExecute (nowMillis fuel : Nat) (payload : List Nat) (st : McuState)
    (ob : McuOffline) : McuResult × McuState × McuOffline :=
  if payload.length < 8 then (.validationError 0x01, st, ob)
  else if byteAt payload 0 ≠ 0xEF ∨ byteAt payload 1 ≠ 0xF1 then
    (.validationError 0x02, st, ob)
  else if byteAt payload 2 ≠ 1 then (.validationError 0x03, st, ob)
  else
    let numInstr := 256 * byteAt payload 4 + byteAt payload 5
    if payload.length < 8 + numInstr * 8 then (.validationError 0x04, st, ob)
    else mcuExecLoop nowMillis payload numInstr fuel 0 0 st ob

-- ═════════════════════════════════════════════════════════════════════════════
-- Concrete test fixtures (used by witnesses and counterexamples)
-- ═════════════════════════════════════════════════════════════════════════════

/-- A concrete opcode numbering for test executions (the executor theorems
below are parametric in the numbering; this one is only a witness device). -/
def testDecodeOpcode (n : Int) : Option IrOpcode :=
  match n with
  | 1 => some .loadResource
  | 2 => some .storeMemory
  | 3 => some .callService
  | 4 => some .callAction
  | 5 => some .callMcp
  | 6 => some .llmCall
  | 7 => some .transform
  | 8 => some .validate
  | 9 => some .aggregate
  | 10 => some .filter
  | 11 => some .branch
  | 12 => some .jump
  | 13 => some .loop
  | 14 => some .parallelSpawn
  | 15 => some .parallelMerge
  | 16 => some .ret
  | _ => none

/-- A concrete executor environment where every external call succeeds with
`null` and nothing parses. -/
def testEnv : ExecEnv :=
  { decodeOpcode := testDecodeOpcode
    parseJson := fun _ => none
    loadResource := fun _ => .ok .null
    callService := fun _ _ => .ok .null
    callAction := fun _ _ => .ok .null
    callMcp := fun _ _ => .ok .null
    llmCall := fun _ _ => .ok .null
    acquirePermit := fun _ _ => .ok () }

/-- Instruction constructor with the defaults used by the fixtures. -/
def mkInstr (idx opcode dest : Int) (src : List Int) : Instruction :=
  { index := idx, opcode := opcode, dest := dest, src := src, serviceId := "",
    operandsJson := "", targetInstruction := 0, loopOperands := none,
    priorityPolicy := none }

-- ═════════════════════════════════════════════════════════════════════════════
-- C10 — unknown opcodes are treated as RETURN
-- ═════════════════════════════════════════════════════════════════════════════

/-- C10: in the edge executor, an instruction whose opcode integer does not
decode to a known `IrOpcode` variant is treated as `RETURN`: the execution
loop terminates at that instruction and the slice completes successfully
with the registers (and audit log) computed so far, instead of failing with
an unknown-opcode error. -/
theorem C10_unknown_opcode_is_return (env : ExecEnv) (ir : Ir) (fuel : Nat)
    (regs : Registers) (log : List String) (ip : Nat) (instr : Instruction)
    (hip : ip < ir.order.length)
    (hin : irGet ir (ir.order.get ⟨ip, hip⟩) = some instr)
    (hop : env.decodeOpcode instr.opcode = none) :
    execLoop env ir (fuel + 1) regs log ip = .ok regs log := by
  unfold execLoop
  simp only [hip, dif_pos, hin, hop, Option.getD_none]

/-- Witness for C10: a one-instruction IR whose sole instruction carries the
undecodable opcode 99 completes successfully. -/
def c10Ir : Ir :=
  { instructions := [(0, mkInstr 0 99 0 [])], order := [0] }

/-- C10 witness: concrete run of the unknown-opcode IR. -/
theorem C10_witness : execLoop testEnv c10Ir 1 [] [] 0 = .ok [] [] :=
  C10_unknown_opcode_is_return testEnv c10Ir 0 [] [] 0 (mkInstr 0 99 0 [])
    (by decide) rfl rfl

-- ═════════════════════════════════════════════════════════════════════════════
-- C8 — MCU header validation refuses bad input without touching state
-- ═════════════════════════════════════════════════════════════════════════════

/-- C8: the MCU executor validates its header with distinct error codes and
touches no state in either case: a payload shorter than 8 bytes yields
`ValidationError 0x01`; one whose first two bytes are not `0xEF 0xF1` yields
`0x02`; one whose version byte is not 1 yields `0x03`; and one shorter than
`8 + num_instr * 8` yields `0x04`. In all four cases the registers, the
output buffer, and the offline ring are returned unchanged (no opcode is
executed). -/
theorem C8_mcu_validation (nowMillis fuel : Nat) (payload : List Nat)
    (st : McuState) (ob : McuOffline) :
    (payload.length < 8 →
      mcuExecute nowMillis fuel payload st ob = (.validationError 0x01, st, ob)) ∧
    (8 ≤ payload.length → (byteAt payload 0 ≠ 0xEF ∨ byteAt payload 1 ≠ 0xF1) →
      mcuExecute nowMillis fuel payload st ob = (.validationError 0x02, st, ob)) ∧
    (8 ≤ payload.length → byteAt payload 0 = 0xEF → byteAt payload 1 = 0xF1 →
      byteAt payload 2 ≠ 1 →
      mcuExecute nowMillis fuel payload st ob = (.validationError 0x03, st, ob)) ∧
    (8 ≤ payload.length → byteAt payload 0 = 0xEF → byteAt payload 1 = 0xF1 →
      byteAt payload 2 = 1 →
      payload.length < 8 + (256 * byteAt payload 4 + byteAt payload 5) * 8 →
      mcuExecute nowMillis fuel payload st ob = (.validationError 0x04, st, ob)) := by
  refine ⟨fun h1 => ?_, fun h1 h2 => ?_, fun h1 h2 h3 h4 => ?_, fun h1 h2 h3 h4 h5 => ?_⟩
  · simp [mcuExecute, h1]
  · simp [mcuExecute, Nat.not_lt.mpr h1, h2]
  · simp [mcuExecute, Nat.not_lt.mpr h1, h2, h3, h4]
  · simp [mcuExecute, Nat.not_lt.mpr h1, h2, h3, h4, h5]

/-- A concrete MCU pre-state for the C8 witness. -/
def c8St : McuState := { r := [0, 0, 0, 0, 0, 0, 0, 0], flags := 0, output := [] }

/-- A concrete MCU offline ring for the C8 witness. -/
def c8Ob : McuOffline := { entries := [], dropped := 0, linkUp := false }

/-- C8 witness: a payload with a bad version byte (and another that is
truncated) is refused with its distinct code at a concrete input, leaving
the state untouched. -/
theorem C8_witness :
    mcuExecute 0 9 [0xEF, 0xF1, 2, 1, 0, 1, 0, 0] c8St c8Ob
      = (.validationError 0x03, c8St, c8Ob) ∧
    mcuExecute 0 9 [0xEF, 0xF1, 1, 1, 0, 1, 0, 0] c8St c8Ob
      = (.validationError 0x04, c8St, c8Ob) :=
  ⟨(C8_mcu_validation 0 9 _ c8St c8Ob).2.2.1 (by decide) (by decide)
      (by decide) (by decide),
   (C8_mcu_validation 0 9 _ c8St c8Ob).2.2.2 (by decide) (by decide)
      (by decide) (by decide) (by decide)⟩

-- ═════════════════════════════════════════════════════════════════════════════
-- C9 — AuditChain::new ignores the supplied PEM entirely
-- ═════════════════════════════════════════════════════════════════════════════

/-- C9: `AuditChain::new` generates a fresh ephemeral Ed25519 key pair
regardless of whether a private-key PEM is supplied: the constructed state
is independent of the PEM argument, the signing key is exactly the
OS-RNG-generated key, and the published verifying key is derived from that
generated key — so signatures are not reproducible across restarts even
with a configured PEM. -/
theorem C9_new_ignores_pem (derivePubHex : List Nat → String) (nodeId : String)
    (pem pem' : Option String) (osRngKey : List Nat) :
    auditChainNew derivePubHex nodeId pem osRngKey
      = auditChainNew derivePubHex nodeId pem' osRngKey ∧
    (auditChainNew derivePubHex nodeId pem osRngKey).signingKey = osRngKey ∧
    (auditChainNew derivePubHex nodeId pem osRngKey).verifyingKeyHex
      = derivePubHex osRngKey := by
  cases pem <;> cases pem' <;> exact ⟨rfl, rfl, rfl⟩

-- ═════════════════════════════════════════════════════════════════════════════
-- C1 — the LOOP arm scans but never dispatches its body instructions
-- ═════════════════════════════════════════════════════════════════════════════

/-- A LOOP over a one-instruction body: order `[10, 20, 30]`, where 10 is the
LOOP (max 2 iterations, body at index 20, exit at index 30, no predicate),
20 is a TRANSFORM writing register 5, and 30 is RETURN. -/
def c1Ir : Ir :=
  { instructions :=
      [(10, { mkInstr 10 13 0 [] with
                loopOperands := some { maxIterations := 2, bodyStartIndex := 20,
                                       exitIndex := 30, convergencePredicate := none } }),
       (20, mkInstr 20 7 5 []),
       (30, mkInstr 30 16 0 [])],
    order := [10, 20, 30] }

/-- C1: evaluating the code on the failing input. The LOOP arm looks up the
body instruction at `order[scan]`, checks its opcode against RETURN, wraps
the scan pointer and counts iterations — but never dispatches the body — so
after a full run over `c1Ir` the register file is completely empty (first
conjunct), even though dispatching the body TRANSFORM itself (second
conjunct, starting the executor at the body's ip) does write register 5.
The claim (and the spec's §4.1 LOOP paragraph and S3 scenario, and the
source's own `// Execute one body instruction` comment) requires the body
to actually execute. -/
theorem C1_loop_body_never_dispatched :
    executeIr testEnv c1Ir 2 = .ok [] [] ∧
    execLoop testEnv c1Ir 2 [] [] 1 = .ok [(5, Json.null)] [] := by
  constructor
  · simp [executeIr, execLoop, loopScan, c1Ir, mkInstr, irGet, resolveIp,
      readSrc, regsGet, regsInsert, applyTransform, testEnv, testDecodeOpcode,
      Json.getField?]
  · simp [execLoop, c1Ir, mkInstr, irGet, resolveIp, readSrc, regsGet,
      regsInsert, applyTransform, testEnv, testDecodeOpcode, Json.getField?,
      Except.toOption]

-- ═════════════════════════════════════════════════════════════════════════════
-- C2 — only STORE_MEMORY fails on an absent/undefined src read
-- ═════════════════════════════════════════════════════════════════════════════

/-- A BRANCH reading undefined register 1, followed by RETURN. -/
def c2Ir : Ir :=
  { instructions := [(0, mkInstr 0 11 0 [1]), (1, mkInstr 1 16 0 [])],
    order := [0, 1] }

/-- C2 counterexample: `read_src` on the BRANCH's undefined register 1 does
return an error (first conjunct), but the BRANCH instruction does not fail —
the error is converted to an absent value, the branch falls through, and the
slice completes successfully (second conjunct). This refutes the claim that
the failure propagates uniformly for every src-reading opcode. -/
theorem C2_counterexample :
    readSrc (mkInstr 0 11 0 [1]) ([] : Registers) 0
      = .error "register R1 is undefined" ∧
    execLoop testEnv c2Ir 2 [] [] 0 = .ok [] [] := by
  constructor
  · rfl
  · simp [execLoop, c2Ir, mkInstr, irGet, readSrc, regsGet, testEnv,
      testDecodeOpcode, isTruthy, Except.toOption]

/-- C2 (amended): `Svm::read_src` fails with a well-defined error whenever
`src[n]` is absent or the named register is undefined, and `STORE_MEMORY`
propagates that error, failing the slice; but every other src-reading
opcode swallows it: `BRANCH` treats the value as absent (falsy) and falls
through; `TRANSFORM`, `VALIDATE`, `AGGREGATE` and `FILTER` substitute
`null` (`unwrap_or`); and `CALL_SERVICE`, `CALL_ACTION`, `CALL_MCP` and
`LLM_CALL` proceed with an absent input (`.ok()`), so only `STORE_MEMORY`
fails the instruction on a bad src read. -/
theorem C2_amended_read_src (env : ExecEnv) (ir : Ir) (fuel : Nat)
    (regs : Registers) (log : List String) (ip : Nat) (instr : Instruction)
    (e : String) (hip : ip < ir.order.length)
    (hin : irGet ir (ir.order.get ⟨ip, hip⟩) = some instr)
    (herr : readSrc instr regs 0 = .error e) :
    (∀ (instr' : Instruction) (regs' : Registers) (n : Nat),
        instr'.src[n]? = none →
        readSrc instr' regs' n =
          .error ("instruction #" ++ toString instr'.index ++ " has no src["
            ++ toString n ++ "]")) ∧
    (∀ (instr' : Instruction) (regs' : Registers) (n : Nat) (idx : Int),
        instr'.src[n]? = some idx → regsGet regs' idx = none →
        readSrc instr' regs' n = .error ("register R" ++ toString idx ++ " is undefined")) ∧
    (env.decodeOpcode instr.opcode = some .storeMemory →
        execLoop env ir (fuel + 1) regs log ip = .err e) ∧
    (env.decodeOpcode instr.opcode = some .branch →
        execLoop env ir (fuel + 1) regs log ip = execLoop env ir fuel regs log (ip + 1)) ∧
    (env.decodeOpcode instr.opcode = some .transform →
        execLoop env ir (fuel + 1) regs log ip =
          execLoop env ir fuel
            (regsInsert regs instr.dest
              (applyTransform .null ((env.parseJson instr.operandsJson).getD .null)))
            log (ip + 1)) ∧
    (env.decodeOpcode instr.opcode = some .validate →
        execLoop env ir (fuel + 1) regs log ip =
          execLoop env ir fuel (regsInsert regs instr.dest .null) log (ip + 1)) ∧
    (env.decodeOpcode instr.opcode = some .aggregate →
        execLoop env ir (fuel + 1) regs log ip =
          execLoop env ir fuel (regsInsert regs instr.dest .null) log (ip + 1)) ∧
    (env.decodeOpcode instr.opcode = some .filter →
        execLoop env ir (fuel + 1) regs log ip =
          execLoop env ir fuel (regsInsert regs instr.dest .null) log (ip + 1)) ∧
    (∀ v, env.decodeOpcode instr.opcode = some .callService →
        instr.priorityPolicy = none → env.callService instr none = .ok v →
        execLoop env ir (fuel + 1) regs log ip =
          execLoop env ir fuel (regsInsert regs instr.dest v)
            (log ++ ["CALL_SERVICE"]) (ip + 1)) ∧
    (∀ v, env.decodeOpcode instr.opcode = some .callAction →
        instr.priorityPolicy = none → env.callAction instr none = .ok v →
        execLoop env ir (fuel + 1) regs log ip =
          execLoop env ir fuel (regsInsert regs instr.dest v)
            (log ++ ["CALL_ACTION"]) (ip + 1)) ∧
    (∀ v, env.decodeOpcode instr.opcode = some .callMcp →
        env.callMcp instr none = .ok v →
        execLoop env ir (fuel + 1) regs log ip =
          execLoop env ir fuel (regsInsert regs instr.dest v) log (ip + 1)) ∧
    (∀ v, env.decodeOpcode instr.opcode = some .llmCall →
        env.llmCall instr none = .ok v →
        execLoop env ir (fuel + 1) regs log ip =
          execLoop env ir fuel (regsInsert regs instr.dest v)
            (log ++ ["LLM_CALL"]) (ip + 1)) := by
  refine ⟨?_, ?_, ?_, ?_, ?_, ?_, ?_, ?_, ?_, ?_, ?_, ?_⟩
  · intro instr' regs' n hn
    simp [readSrc, hn]
  · intro instr' regs' n idx hn hreg
    simp [readSrc, hn, hreg]
  · intro hop
    conv_lhs => unfold execLoop
    simp only [hip, dif_pos, hin, hop, Option.getD_some, herr]
  · intro hop
    conv_lhs => unfold execLoop
    simp only [hip, dif_pos, hin, hop, Option.getD_some, herr]
    simp [Except.toOption, isTruthy]
  · intro hop
    conv_lhs => unfold execLoop
    simp only [hip, dif_pos, hin, hop, Option.getD_some, herr]
    simp [Except.toOption]
  · intro hop
    conv_lhs => unfold execLoop
    simp only [hip, dif_pos, hin, hop, Option.getD_some, herr]
    simp [Except.toOption]
  · intro hop
    conv_lhs => unfold execLoop
    simp only [hip, dif_pos, hin, hop, Option.getD_some, herr]
    simp [Except.toOption]
  · intro hop
    conv_lhs => unfold execLoop
    simp only [hip, dif_pos, hin, hop, Option.getD_some, herr]
    simp [Except.toOption]
  · intro v hop hpp hcs
    conv_lhs => unfold execLoop
    simp only [hip, dif_pos, hin, hop, Option.getD_some, herr, hpp]
    simp [Except.toOption, hcs]
  · intro v hop hpp hca
    conv_lhs => unfold execLoop
    simp only [hip, dif_pos, hin, hop, Option.getD_some, herr, hpp]
    simp [Except.toOption, hca]
  · intro v hop hcm
    conv_lhs => unfold execLoop
    simp only [hip, dif_pos, hin, hop, Option.getD_some, herr]
    simp [Except.toOption, hcm]
  · intro v hop hllm
    conv_lhs => unfold execLoop
    simp only [hip, dif_pos, hin, hop, Option.getD_some, herr]
    simp [Except.toOption, hllm]

/-- A STORE_MEMORY reading undefined register 1. -/
def c2sIr : Ir :=
  { instructions := [(0, mkInstr 0 2 3 [1])], order := [0] }

/-- A one-instruction IR whose instruction (opcode `opc` in the test
numbering) reads undefined register 1 into register 3. -/
def c2Op (opc : Int) : Ir :=
  { instructions := [(0, mkInstr 0 opc 3 [1])], order := [0] }

/-- C2 witness: the amended theorem applied at concrete inputs for each
src-reading opcode — the STORE_MEMORY slice aborts with the
undefined-register error, while BRANCH falls through, VALIDATE, AGGREGATE
and FILTER write null, and CALL_ACTION, CALL_MCP and LLM_CALL proceed with
the call's result. -/
theorem C2_amended_witness :
    execLoop testEnv c2sIr 1 [] [] 0 = .err "register R1 is undefined" ∧
    execLoop testEnv c2Ir 2 [] [] 0 = execLoop testEnv c2Ir 1 [] [] 1 ∧
    execLoop testEnv (c2Op 8) 1 [] [] 0
      = execLoop testEnv (c2Op 8) 0 [(3, Json.null)] [] 1 ∧
    execLoop testEnv (c2Op 9) 1 [] [] 0
      = execLoop testEnv (c2Op 9) 0 [(3, Json.null)] [] 1 ∧
    execLoop testEnv (c2Op 10) 1 [] [] 0
      = execLoop testEnv (c2Op 10) 0 [(3, Json.null)] [] 1 ∧
    execLoop testEnv (c2Op 4) 1 [] [] 0
      = execLoop testEnv (c2Op 4) 0 [(3, Json.null)] ["CALL_ACTION"] 1 ∧
    execLoop testEnv (c2Op 5) 1 [] [] 0
      = execLoop testEnv (c2Op 5) 0 [(3, Json.null)] [] 1 ∧
    execLoop testEnv (c2Op 6) 1 [] [] 0
      = execLoop testEnv (c2Op 6) 0 [(3, Json.null)] ["LLM_CALL"] 1 :=
  ⟨(C2_amended_read_src testEnv c2sIr 0 [] [] 0 (mkInstr 0 2 3 [1])
      "register R1 is undefined" (by decide) rfl rfl).2.2.1 rfl,
   (C2_amended_read_src testEnv c2Ir 1 [] [] 0 (mkInstr 0 11 0 [1])
      "register R1 is undefined" (by decide) rfl rfl).2.2.2.1 rfl,
   (C2_amended_read_src testEnv (c2Op 8) 0 [] [] 0 (mkInstr 0 8 3 [1])
      "register R1 is undefined" (by decide) rfl rfl).2.2.2.2.2.1 rfl,
   (C2_amended_read_src testEnv (c2Op 9) 0 [] [] 0 (mkInstr 0 9 3 [1])
      "register R1 is undefined" (by decide) rfl rfl).2.2.2.2.2.2.1 rfl,
   (C2_amended_read_src testEnv (c2Op 10) 0 [] [] 0 (mkInstr 0 10 3 [1])
      "register R1 is undefined" (by decide) rfl rfl).2.2.2.2.2.2.2.1 rfl,
   (C2_amended_read_src testEnv (c2Op 4) 0 [] [] 0 (mkInstr 0 4 3 [1])
      "register R1 is undefined" (by decide) rfl rfl).2.2.2.2.2.2.2.2.2.1
      Json.null rfl rfl rfl,
   (C2_amended_read_src testEnv (c2Op 5) 0 [] [] 0 (mkInstr 0 5 3 [1])
      "register R1 is undefined" (by decide) rfl rfl).2.2.2.2.2.2.2.2.2.2.1
      Json.null rfl rfl,
   (C2_amended_read_src testEnv (c2Op 6) 0 [] [] 0 (mkInstr 0 6 3 [1])
      "register R1 is undefined" (by decide) rfl rfl).2.2.2.2.2.2.2.2.2.2.2
      Json.null rfl rfl⟩

-- ═════════════════════════════════════════════════════════════════════════════
-- C4 — version gate: alert and refusal, but no FAILED result frame
-- ═════════════════════════════════════════════════════════════════════════════

/-- A concrete artifact with format major 2. -/
def c4Artifact : SignedIrArtifact :=
  { payload := [], version := 2, payloadChecksum := "", publicKeyPem := "",
    signature := "" }

/-- A node environment whose decoder always yields the major-2 artifact. -/
def c4Env : NodeEnv :=
  { decodeDistMsg := fun _ => some { artifact := some c4Artifact, workflowId := "w" }
    sha256Hex := fun _ => ""
    decodeIrPayload := fun _ => none
    executeSlice := fun _ => { status := "SUCCESS", error := "" } }

/-- C4 counterexample: on a major-2 artifact received by a node configured
for major 1, the binary message handler posts the security alert and
refuses execution, but the message loop merely logs the handler's error —
no slice-result frame of any kind (in particular no FAILED one) is sent
back to the caller, contradicting the claim's "returns a FAILED slice
result". -/
theorem C4_counterexample :
    binaryMessageStep c4Env 1 [0] = [.postSecurityAlert 1 2] ∧
    (∀ s, NodeAction.sendBinaryResult s ∉ binaryMessageStep c4Env 1 [0]) ∧
    NodeAction.runExecutor ∉ binaryMessageStep c4Env 1 [0] := by
  refine ⟨rfl, fun s => ?_, ?_⟩ <;>
    simp [binaryMessageStep, handleBinaryMessage, c4Env, c4Artifact]

/-- C4 (amended): for every incoming artifact whose major differs from the
node's configured major and is not 0, the handler does not run the
executor, performs exactly one best-effort security-alert POST, sends no
result frame, and returns an error that the session loop only logs; an
artifact with version 0 is accepted with a warning and (when the artifact
checks pass) proceeds to execution and a result frame. -/
theorem C4_amended_version_gate :
    (∀ (env : NodeEnv) (cfgMajor : Nat) (data : List Nat)
        (distMsg : IrDistributionMessage) (artifact : SignedIrArtifact),
      env.decodeDistMsg data = some distMsg →
      distMsg.artifact = some artifact →
      artifact.version ≠ 0 → artifact.version ≠ cfgMajor →
      handleBinaryMessage env cfgMajor data =
        ([.postSecurityAlert cfgMajor artifact.version],
         .error "IR major version mismatch") ∧
      NodeAction.runExecutor ∉ (handleBinaryMessage env cfgMajor data).1 ∧
      (∀ s, NodeAction.sendBinaryResult s ∉ (handleBinaryMessage env cfgMajor data).1)) ∧
    (∀ (env : NodeEnv) (cfgMajor : Nat) (data : List Nat)
        (distMsg : IrDistributionMessage) (artifact : SignedIrArtifact) (ir : Ir),
      env.decodeDistMsg data = some distMsg →
      distMsg.artifact = some artifact →
      artifact.version = 0 →
      verifyArtifactSignature env artifact = .ok () →
      env.decodeIrPayload artifact.payload = some ir →
      handleBinaryMessage env cfgMajor data =
        ([.runExecutor, .sendBinaryResult (env.executeSlice ir).status], .ok ())) := by
  constructor
  · intro env cfgMajor data distMsg artifact hdec hart hv0 hvm
    have hmain : handleBinaryMessage env cfgMajor data =
        ([.postSecurityAlert cfgMajor artifact.version],
         .error "IR major version mismatch") := by
      simp [handleBinaryMessage, hdec, hart, hv0, hvm]
    refine ⟨hmain, ?_, fun s => ?_⟩ <;> simp [hmain]
  · intro env cfgMajor data distMsg artifact ir hdec hart hv0 hsig hir
    simp [handleBinaryMessage, hdec, hart, hv0, hsig, hir]

/-- An artifact with version 0 for the happy-path part of the C4 witness. -/
def c4Artifact0 : SignedIrArtifact :=
  { payload := [], version := 0, payloadChecksum := "", publicKeyPem := "",
    signature := "" }

/-- A node environment delivering the version-0 artifact and decoding its
payload into the trivial empty IR. -/
def c4Env0 : NodeEnv :=
  { decodeDistMsg := fun _ => some { artifact := some c4Artifact0, workflowId := "w" }
    sha256Hex := fun _ => ""
    decodeIrPayload := fun _ => some { instructions := [], order := [] }
    executeSlice := fun _ => { status := "SUCCESS", error := "" } }

/-- C4 witness: the amended theorem applied at the concrete major-2 and
version-0 artifacts. -/
theorem C4_amended_witness :
    handleBinaryMessage c4Env 1 [0] =
      ([.postSecurityAlert 1 2], .error "IR major version mismatch") ∧
    handleBinaryMessage c4Env0 1 [0] =
      ([.runExecutor, .sendBinaryResult "SUCCESS"], .ok ()) :=
  ⟨(C4_amended_version_gate.1 c4Env 1 [0] _ c4Artifact rfl rfl
      (by decide) (by decide)).1,
   C4_amended_version_gate.2 c4Env0 1 [0] _ c4Artifact0
      { instructions := [], order := [] } rfl rfl rfl rfl rfl⟩

-- ═════════════════════════════════════════════════════════════════════════════
-- C5 — RETRY_WITH_BACKOFF: invocation count, first success, total wait
-- ═════════════════════════════════════════════════════════════════════════════

/-- The total milliseconds slept by the retry loop over attempts
`a, a+1, …, maxA` (no sleep before attempt 1). -/
def waitSumFrom (base : Nat) (a maxA : Nat) : Nat :=
  if maxA < a then 0
  else (if 1 < a then backoffWait base a else 0) + waitSumFrom base (a + 1) maxA
termination_by maxA + 1 - a

/-- The claim's wait total: `claimSum base m = Σ i ∈ [1, m-1], base·2^min(i-1,6)`
(the recursive equation adds the `i = m+1` term `base·2^min(m,6)`). -/
def claimSum (base : Nat) : Nat → Nat
  | 0 => 0
  | 1 => 0
  | m + 2 => claimSum base (m + 1) + base * 2 ^ (min m 6)

/-- `waitSumFrom` above its top is zero. -/
theorem waitSumFrom_stop (base a maxA : Nat) (h : maxA < a) :
    waitSumFrom base a maxA = 0 := by
  unfold waitSumFrom
  simp [h]

/-- One unfolding step of `waitSumFrom` at the bottom. -/
theorem waitSumFrom_step (base a maxA : Nat) (h : a ≤ maxA) :
    waitSumFrom base a maxA =
      (if 1 < a then backoffWait base a else 0) + waitSumFrom base (a + 1) maxA := by
  conv_lhs => unfold waitSumFrom
  simp [Nat.not_lt.mpr h]

/-- Peeling the top attempt off `waitSumFrom` (auxiliary, indexed by the
number of remaining attempts). -/
theorem waitSumFrom_succ_top_aux (base : Nat) :
    ∀ (n a maxA : Nat), maxA + 1 - a = n → a ≤ maxA + 1 →
      waitSumFrom base a (maxA + 1) =
        waitSumFrom base a maxA +
          (if 1 < maxA + 1 then backoffWait base (maxA + 1) else 0) := by
  intro n
  induction n with
  | zero =>
    intro a maxA hn ha
    have haeq : a = maxA + 1 := by omega
    subst haeq
    rw [waitSumFrom_step base _ _ (le_refl _), waitSumFrom_stop base _ _ (by omega),
      waitSumFrom_stop base _ _ (by omega)]
    ring
  | succ n ih =>
    intro a maxA hn ha
    have ha' : a ≤ maxA := by omega
    rw [waitSumFrom_step base a (maxA + 1) (by omega), waitSumFrom_step base a maxA ha',
      ih (a + 1) maxA (by omega) (by omega)]
    ring

/-- Peeling the top attempt off `waitSumFrom`. -/
theorem waitSumFrom_succ_top (base a maxA : Nat) (ha : a ≤ maxA + 1) :
    waitSumFrom base a (maxA + 1) =
      waitSumFrom base a maxA +
        (if 1 < maxA + 1 then backoffWait base (maxA + 1) else 0) :=
  waitSumFrom_succ_top_aux base (maxA + 1 - a) a maxA rfl ha

/-- Without `u64` overflow, one backoff wait is exactly the claimed
`base · 2^min(attempt-2, 6)`. -/
theorem backoffWait_no_overflow (base attempt : Nat) (hbase : base * 64 < U64) :
    backoffWait base attempt = base * 2 ^ (min (attempt - 2) 6) := by
  unfold backoffWait
  have hle : base * 2 ^ (min (attempt - 2) 6) ≤ base * 64 := by
    have : (2 : Nat) ^ min (attempt - 2) 6 ≤ 2 ^ 6 :=
      Nat.pow_le_pow_right (by norm_num) (min_le_right _ _)
    calc base * 2 ^ min (attempt - 2) 6 ≤ base * 2 ^ 6 :=
          Nat.mul_le_mul_left base this
      _ = base * 64 := by norm_num
  exact Nat.mod_eq_of_lt (lt_of_le_of_lt hle hbase)

/-- Without overflow the loop's total sleep from attempt 1 equals the
claim's sum. -/
theorem waitSum_eq_claimSum (base : Nat) (hbase : base * 64 < U64) :
    ∀ m, waitSumFrom base 1 m = claimSum base m := by
  intro m
  induction m with
  | zero => rw [waitSumFrom_stop base 1 0 (by omega)]; rfl
  | succ m ih =>
    cases m with
    | zero =>
      rw [waitSumFrom_step base 1 1 (le_refl 1), waitSumFrom_stop base 2 1 (by omega)]
      rfl
    | succ m' =>
      rw [waitSumFrom_succ_top base 1 (m' + 1) (by omega), ih]
      have h2 : (1 : Nat) < m' + 1 + 1 := by omega
      rw [if_pos h2, backoffWait_no_overflow base _ hbase]
      show claimSum base (m' + 2) = claimSum base (m' + 1) + base * 2 ^ min (m' + 2 - 2) 6
      simp [claimSum]

/-- The retry loop performs at most `maxA + 1 - attempt` further
invocations. -/
theorem retryGo_calls_le (f : Nat → Except String Json) (base maxA : Nat) :
    ∀ (n attempt : Nat) (lastErr : Option String) (calls sleepMs : Nat),
      maxA + 1 - attempt = n →
      (retryGo f base maxA attempt lastErr calls sleepMs).2.1
        ≤ calls + (maxA + 1 - attempt) := by
  intro n
  induction n with
  | zero =>
    intro attempt lastErr calls sleepMs hn
    have h : maxA < attempt := by omega
    unfold retryGo
    simp [h]
  | succ n ih =>
    intro attempt lastErr calls sleepMs hn
    have h : ¬ maxA < attempt := by omega
    unfold retryGo
    rw [dif_neg h]
    cases hf : f attempt with
    | ok v => simp only; omega
    | error e =>
      simp only
      have := ih (attempt + 1) (some e) (calls + 1)
        (if 1 < attempt then sleepMs + backoffWait base attempt else sleepMs)
        (by omega)
      omega

/-- If attempts `attempt..k-1` fail and attempt `k` succeeds, the loop
returns that success having invoked the operation `k + 1 - attempt` more
times and slept the backoff schedule up to attempt `k`. -/
theorem retryGo_firstSuccess (f : Nat → Except String Json) (base maxA : Nat)
    (errs : Nat → String) (k : Nat) (v : Json) (hk : f k = .ok v) :
    ∀ (n attempt : Nat) (lastErr : Option String) (calls sleepMs : Nat),
      maxA + 1 - attempt = n → attempt ≤ k → k ≤ maxA →
      (∀ j, attempt ≤ j → j < k → f j = .error (errs j)) →
      retryGo f base maxA attempt lastErr calls sleepMs =
        (.ok v, calls + (k + 1 - attempt), sleepMs + waitSumFrom base attempt k) := by
  intro n
  induction n with
  | zero =>
    intro attempt lastErr calls sleepMs hn hak hkm _
    omega
  | succ n ih =>
    intro attempt lastErr calls sleepMs hn hak hkm hfail
    have h : ¬ maxA < attempt := by omega
    unfold retryGo
    rw [dif_neg h]
    by_cases hek : attempt = k
    · subst hek
      rw [hk]
      simp only
      rw [waitSumFrom_step base attempt attempt (le_refl _),
        waitSumFrom_stop base (attempt + 1) attempt (by omega)]
      simp only [Prod.mk.injEq]
      refine ⟨trivial, by omega, ?_⟩
      by_cases h1 : 1 < attempt <;> simp [h1]
    · have hlt : attempt < k := by omega
      rw [hfail attempt (le_refl _) hlt]
      simp only
      rw [ih (attempt + 1) (some (errs attempt)) (calls + 1)
        (if 1 < attempt then sleepMs + backoffWait base attempt else sleepMs)
        (by omega) (by omega) hkm (fun j hj hjk => hfail j (by omega) hjk)]
      rw [waitSumFrom_step base attempt k (by omega)]
      simp only [Prod.mk.injEq]
      refine ⟨trivial, by omega, ?_⟩
      by_cases h1 : 1 < attempt <;> simp [h1] <;> ring

/-- If every attempt from `attempt` through `maxA` fails, the loop returns
the error of attempt `maxA` (the last one), having invoked the operation
once per remaining attempt and slept the full backoff schedule. -/
theorem retryGo_allFail (f : Nat → Except String Json) (base maxA : Nat)
    (errs : Nat → String) :
    ∀ (n attempt : Nat) (lastErr : Option String) (calls sleepMs : Nat),
      maxA + 1 - attempt = n → attempt ≤ maxA + 1 →
      (∀ j, attempt ≤ j → j ≤ maxA → f j = .error (errs j)) →
      retryGo f base maxA attempt lastErr calls sleepMs =
        (.error (if attempt ≤ maxA then errs maxA else lastErr.getD "retry exhausted"),
         calls + (maxA + 1 - attempt), sleepMs + waitSumFrom base attempt maxA) := by
  intro n
  induction n with
  | zero =>
    intro attempt lastErr calls sleepMs hn ha hfail
    have h : maxA < attempt := by omega
    have hnle : ¬ attempt ≤ maxA := by omega
    unfold retryGo
    rw [dif_pos h, waitSumFrom_stop base attempt maxA h, if_neg hnle]
    simp only [Prod.mk.injEq]
    exact ⟨trivial, by omega, by omega⟩
  | succ n ih =>
    intro attempt lastErr calls sleepMs hn ha hfail
    have h : ¬ maxA < attempt := by omega
    unfold retryGo
    rw [dif_neg h]
    rw [hfail attempt (le_refl _) (by omega)]
    simp only
    rw [ih (attempt + 1) (some (errs attempt)) (calls + 1)
      (if 1 < attempt then sleepMs + backoffWait base attempt else sleepMs)
      (by omega) (by omega) (fun j hj hjm => hfail j (by omega) hjm)]
    have herr : (if attempt + 1 ≤ maxA then errs maxA
        else (some (errs attempt)).getD "retry exhausted")
        = errs maxA := by
      by_cases hc : attempt + 1 ≤ maxA
      · rw [if_pos hc]
      · have : attempt = maxA := by omega
        subst this
        simp
    rw [herr, if_pos (by omega : attempt ≤ maxA),
      waitSumFrom_step base attempt maxA (by omega)]
    simp only [Prod.mk.injEq]
    refine ⟨trivial, by omega, ?_⟩
    by_cases h1 : 1 < attempt <;> simp [h1] <;> ring

/-- C5: for `RETRY_WITH_BACKOFF` with `max_attempts = m ≥ 1` and
`backoff_base_ms = base` (small enough not to overflow `u64`), the
executor's in-place retry invokes the wrapped operation at most `m` times;
it returns at the first success, having invoked exactly `k` times when
attempt `k` is the first to succeed; each sleep before attempt `i+1` is
exactly `base · 2^min(i-1, 6)` ms; and over a fully failing run it returns
the last attempt's error after exactly `m` invocations with total wait
equal to (hence at least) `Σ i ∈ [1, m-1], base · 2^min(i-1, 6)` ms. -/
theorem C5_retry_backoff (m base : Nat) (f : Nat → Except String Json)
    (hm : 1 ≤ m) (hbase : base * 64 < U64) :
    ((retryBackoff m base f).2.1 ≤ m) ∧
    (∀ i, 1 ≤ i → backoffWait base (i + 1) = base * 2 ^ (min (i - 1) 6)) ∧
    (∀ (k : Nat) (v : Json) (errs : Nat → String), 1 ≤ k → k ≤ m →
      f k = .ok v → (∀ j, 1 ≤ j → j < k → f j = .error (errs j)) →
      retryBackoff m base f = (.ok v, k, waitSumFrom base 1 k)) ∧
    (∀ errs : Nat → String, (∀ j, 1 ≤ j → j ≤ m → f j = .error (errs j)) →
      retryBackoff m base f = (.error (errs m), m, claimSum base m) ∧
      claimSum base m ≤ (retryBackoff m base f).2.2) := by
  have hmax : max m 1 = m := Nat.max_eq_left hm
  refine ⟨?_, ?_, ?_, ?_⟩
  · have := retryGo_calls_le f base (max m 1) (max m 1 + 1 - 1) 1 none 0 0 rfl
    unfold retryBackoff
    omega
  · intro i hi
    rw [backoffWait_no_overflow base (i + 1) hbase]
    congr 1
  · intro k v errs hk1 hkm hok hfail
    unfold retryBackoff
    rw [hmax]
    rw [retryGo_firstSuccess f base m errs k v hok (m + 1 - 1) 1 none 0 0 rfl hk1 hkm
      (fun j hj hjk => hfail j hj hjk)]
    simp
  · intro errs hfail
    unfold retryBackoff
    rw [hmax]
    rw [retryGo_allFail f base m errs (m + 1 - 1) 1 none 0 0 rfl (by omega)
      (fun j hj hjm => hfail j hj hjm)]
    rw [if_pos hm]
    rw [waitSum_eq_claimSum base hbase m]
    simp

/-- C5 witness: concrete all-failing run with `m = 3`, `base = 2000`
(the source defaults): three invocations, last error returned, total sleep
`2000 + 4000 = 6000` ms, matching the claimed sum. -/
theorem C5_witness :
    retryBackoff 3 2000 (fun a => .error ("fail" ++ toString a))
      = (.error "fail3", 3, 6000) ∧ claimSum 2000 3 = 6000 :=
  ⟨by
    have h := (C5_retry_backoff 3 2000 (fun a => .error ("fail" ++ toString a))
      (by norm_num) (by norm_num [U64])).2.2.2
      (fun a => "fail" ++ toString a) (fun j _ _ => rfl)
    rw [h.1]
    rfl,
   rfl⟩

-- ═════════════════════════════════════════════════════════════════════════════
-- C6 — offline buffer: bounded FIFO and persist/load round-trip
-- ═════════════════════════════════════════════════════════════════════════════

/-- C6 counterexample: with `max_size = 0` a single enqueue still inserts
(the pop-front of an empty queue is a no-op, then `push_back` runs), so the
queue length is 1, not `min 1 0 = 0` as the claim's `min(n, k)` requires. -/
theorem C6_counterexample :
    obPushMany 0 ([] : List Nat) [7] = [7] ∧
    (obPushMany 0 ([] : List Nat) [7]).length ≠ min 1 0 := by
  exact ⟨rfl, by decide⟩

/-- After any enqueue sequence, the queue is the suffix of the inputs of
length `min n k` (oldest entries dropped first). -/
theorem obPushMany_suffix {Ev : Type} (k : Nat) (hk : 1 ≤ k) :
    ∀ es : List Ev, obPushMany k [] es = es.drop (es.length - k) := by
  intro es
  induction es using List.reverseRecOn with
  | nil => simp [obPushMany]
  | append_singleton es e ih =>
    have hstep : obPushMany k [] (es ++ [e]) = obPush k (obPushMany k [] es) e := by
      simp [obPushMany, List.foldl_append]
    rw [hstep, ih]
    by_cases hlen : es.length < k
    · have h0 : es.length - k = 0 := by omega
      have h0' : es.length + 1 - k = 0 := by omega
      simp only [h0, List.drop_zero, obPush]
      rw [if_neg (by omega), List.length_append]
      simp [h0']
    · push_neg at hlen
      have hQlen : (es.drop (es.length - k)).length = k := by
        rw [List.length_drop]; omega
      simp only [obPush]
      rw [if_pos (by omega), List.tail_drop]
      rw [List.length_append, List.length_singleton]
      rw [List.drop_append_eq_append_drop]
      have h1 : es.length + 1 - k ≤ es.length := by omega
      rw [Nat.sub_eq_zero_of_le (by omega : es.length + 1 - k ≤ es.length)]
      have h2 : es.length + 1 - k = es.length - k + 1 := by omega
      rw [h2, List.drop_zero]

/-- The load loop restores exactly the persisted queue when every line
round-trips through the codec and the queue fits in `max_size`. -/
theorem loadGo_roundtrip {Ev : Type} (c : EvCodec Ev) (k : Nat)
    (hdec : ∀ e, c.decode (c.encode e) = some e)
    (htrim : ∀ e, rustTrim (c.encode e) = c.encode e)
    (hne : ∀ e, c.encode e ≠ "") :
    ∀ (q : List Ev) (acc : List Ev), acc.length + q.length ≤ k →
      loadGo c k acc (persistLines c q) = acc ++ q := by
  intro q
  induction q with
  | nil => intro acc _; simp [persistLines, loadGo]
  | cons e q' ih =>
    intro acc hlen
    simp only [persistLines, List.map_cons, loadGo, htrim e, hne e, hdec e,
      if_false, ite_false]
    by_cases hfull : k ≤ (acc ++ [e]).length
    · rw [if_pos hfull]
      have : q' = [] := by
        rw [List.length_append, List.length_singleton] at hfull
        have : q'.length = 0 := by
          simp only [List.length_cons] at hlen
          omega
        exact List.eq_nil_of_length_eq_zero this
      subst this
      simp
    · rw [if_neg hfull]
      have := ih (acc ++ [e]) (by
        rw [List.length_append, List.length_singleton]
        simp only [List.length_cons] at hlen
        omega)
      rw [show persistLines c q' = q'.map c.encode from rfl] at this
      rw [this]
      simp

/-- C6 (amended): for every offline buffer with `max_size = k ≥ 1`, after
`n` enqueues the queue length is `min(n, k)` and the queue holds exactly the
most recent `min(n, k)` envelopes (each overflowing enqueue drops the
oldest); and persist followed by load on a fresh buffer with the same
`max_size` restores the same envelopes in the same order whenever each line
round-trips through the serde codec (unparseable lines are skipped, and
loading stops at `max_size`). With `k = 0` the buffer instead retains one
element (see the counterexample), so the claim's `min(n, k)` holds only for
`k ≥ 1`. -/
theorem C6_amended_offline_buffer (Ev : Type) (k : Nat) (hk : 1 ≤ k) :
    (∀ es : List Ev, (obPushMany k [] es).length = min es.length k) ∧
    (∀ es : List Ev, obPushMany k [] es = es.drop (es.length - k)) ∧
    (∀ (c : EvCodec Ev) (q : List Ev),
      (∀ e, c.decode (c.encode e) = some e) →
      (∀ e, rustTrim (c.encode e) = c.encode e) →
      (∀ e, c.encode e ≠ "") →
      q.length ≤ k →
      loadLines c k (persistLines c q) = q) := by
  refine ⟨?_, obPushMany_suffix k hk, ?_⟩
  · intro es
    rw [obPushMany_suffix k hk es, List.length_drop]
    omega
  · intro c q hdec htrim hne hlen
    have := loadGo_roundtrip c k hdec htrim hne q [] (by simpa using hlen)
    simpa [loadLines] using this

/-- A trivial one-value codec for the C6 witness. -/
def unitCodec : EvCodec Unit :=
  { encode := fun _ => "x", decode := fun s => if s = "x" then some () else none }

/-- C6 witness: capacity 2, three enqueues — length 2, oldest dropped — and
a two-element persist/load round-trip. -/
theorem C6_witness :
    (obPushMany 2 ([] : List Unit) [(), (), ()]).length = min 3 2 ∧
    loadLines unitCodec 2 (persistLines unitCodec [(), ()]) = [(), ()] :=
  ⟨(C6_amended_offline_buffer Unit 2 (by norm_num)).1 [(), (), ()],
   (C6_amended_offline_buffer Unit 2 (by norm_num)).2.2 unitCodec [(), ()]
     (fun _ => rfl) (fun e => by cases e; decide) (fun e => by cases e; decide)
     (by norm_num)⟩

-- ═════════════════════════════════════════════════════════════════════════════
-- C7 — secret resolver lookup order; the raw env key keeps dots
-- ═════════════════════════════════════════════════════════════════════════════

/-- An environment whose only variable is `A_B` — the name the claim's
normalization (which maps `.` to `_`) would produce for path `a.b`. -/
def c7Env : VaultEnv :=
  { procEnv := fun k => if k = "A_B" then some "v" else none
    hashicorp := fun _ => .error "no vault" }

/-- A resolver with no vault configured and an empty cache. -/
def c7St : VaultState :=
  { vaultAddr := none, vaultToken := none, cache := [], cacheTtl := 30 }

/-- C7 counterexample: for path `a.b` the claim's level-4 normalization
(`/`, `-` and `.` each mapped to `_`) yields `A_B`, which the environment
defines — yet `fetch_secret` fails, because the code's raw env key keeps
the dot (`A.B`) and therefore misses. -/
theorem C7_counterexample :
    (fetchSecret c7Env 0 c7St "a.b").1 = .error "secret not found: a.b" ∧
    c7Env.procEnv
        (replaceChar '.' '_' (replaceChar '-' '_' (replaceChar '/' '_' (strUpper "a.b"))))
      = some "v" ∧
    rawEnvKeyOf "a.b" = "A.B" := by
  refine ⟨?_, ?_, ?_⟩ <;> rfl

/-- C7 (amended): `fetch_secret` consults its sources in order and stops at
the first success — (1) an unexpired TTL-cache entry, (2) the HashiCorp KV
v2 endpoint when both address and token are configured (a success
populates the cache), (3) the env var `VAULT_SECRET_<UPPER(path)>` with
`/`, `-` and `.` each normalized to `_`, (4) the raw env var obtained by
uppercasing the path with `/` and `-` (but not `.`) normalized to `_` —
and fails only when all four levels miss. -/
theorem C7_amended_fetch_order (ve : VaultEnv) (now : Nat) (st : VaultState)
    (path : String) :
    (∀ v exp, cacheGet st.cache path = some (v, exp) → now < exp →
      fetchSecret ve now st path = (.ok (v, .hashicorpVault), st)) ∧
    (∀ a t v, cacheGet st.cache path = none →
      st.vaultAddr = some a → st.vaultToken = some t →
      ve.hashicorp path = .ok v →
      fetchSecret ve now st path =
        (.ok (v, .hashicorpVault),
         { st with cache := cacheInsert st.cache path v (now + st.cacheTtl) })) ∧
    (∀ v, cacheGet st.cache path = none →
      (∀ a t, st.vaultAddr = some a → st.vaultToken = some t →
        ∃ e, ve.hashicorp path = .error e) →
      ve.procEnv (pathToEnvKey path) = some v →
      fetchSecret ve now st path = (.ok (v, .envVar), st)) ∧
    (∀ v, cacheGet st.cache path = none →
      (∀ a t, st.vaultAddr = some a → st.vaultToken = some t →
        ∃ e, ve.hashicorp path = .error e) →
      ve.procEnv (pathToEnvKey path) = none →
      ve.procEnv (rawEnvKeyOf path) = some v →
      fetchSecret ve now st path = (.ok (v, .rawEnvKey), st)) ∧
    (cacheGet st.cache path = none →
      (∀ a t, st.vaultAddr = some a → st.vaultToken = some t →
        ∃ e, ve.hashicorp path = .error e) →
      ve.procEnv (pathToEnvKey path) = none →
      ve.procEnv (rawEnvKeyOf path) = none →
      (fetchSecret ve now st path).1 = .error ("secret not found: " ++ path)) := by
  have hmiss : ∀ (hcm : cacheGet st.cache path = none)
      (hh : ∀ a t, st.vaultAddr = some a → st.vaultToken = some t →
        ∃ e, ve.hashicorp path = .error e),
      (match st.vaultAddr, st.vaultToken with
        | some _, some _ =>
          match ve.hashicorp path with
          | .ok v => some v
          | .error _ => none
        | _, _ => none) = (none : Option String) := by
    intro hcm hh
    cases ha : st.vaultAddr with
    | none => rfl
    | some a =>
      cases ht : st.vaultToken with
      | none => rfl
      | some t =>
        obtain ⟨e, he⟩ := hh a t ha ht
        simp [he]
  refine ⟨?_, ?_, ?_, ?_, ?_⟩
  · intro v exp hc hexp
    simp [fetchSecret, hc, hexp]
  · intro a t v hcm ha ht hh
    simp [fetchSecret, fetchSecretTail, hcm, ha, ht, hh]
  · intro v hcm hh henv
    simp only [fetchSecret, hcm, fetchSecretTail, hmiss hcm hh, henv]
  · intro v hcm hh henv hraw
    simp only [fetchSecret, hcm, fetchSecretTail, hmiss hcm hh, henv, hraw]
  · intro hcm hh henv hraw
    simp only [fetchSecret, hcm, fetchSecretTail, hmiss hcm hh, henv, hraw]

/-- C7 witness: the amended theorem at concrete inputs — an unexpired cache
hit returns immediately, and with every level missing the fetch fails. -/
theorem C7_witness :
    fetchSecret c7Env 0 { c7St with cache := [("p", "cv", 100)] } "p"
      = (.ok ("cv", .hashicorpVault), { c7St with cache := [("p", "cv", 100)] }) ∧
    (fetchSecret c7Env 0 c7St "a.b").1 = .error ("secret not found: " ++ "a.b") :=
  ⟨(C7_amended_fetch_order c7Env 0 _ "p").1 "cv" 100 rfl (by norm_num),
   (C7_amended_fetch_order c7Env 0 c7St "a.b").2.2.2.2 rfl
     (fun a t ha _ => absurd ha (by simp [c7St])) rfl rfl⟩

-- ═════════════════════════════════════════════════════════════════════════════
-- C3 — audit chain: honest verification, invariants, tamper detection
-- ═════════════════════════════════════════════════════════════════════════════

/-- The body `verify` rebuilds from an event `append` produced is the body
`append` hashed. -/
theorem rebuildBody_eventOfBody (he : HashEnv) (pubHex : String) (b : AuditBody) :
    rebuildBody (eventOfBody he pubHex b) = b := rfl

/-- The event a verification step hands to the next step as `prev`:
the last of `xs`, else the incoming `prev`. -/
def lastOpt (prev : Option AuditEvent) (xs : List AuditEvent) : Option AuditEvent :=
  match xs.getLast? with
  | some l => some l
  | none => prev

/-- `lastOpt` shifts across a cons. -/
theorem lastOpt_cons (prev : Option AuditEvent) (x : AuditEvent) (xs : List AuditEvent) :
    lastOpt prev (x :: xs) = lastOpt (some x) xs := by
  cases xs with
  | nil => rfl
  | cons y ys =>
    unfold lastOpt
    rw [List.getLast?_cons_cons]
    cases h : (y :: ys).getLast? with
    | none =>
      have := List.getLast?_isSome (l := y :: ys)
      rw [h] at this
      simp at this
    | some l => rfl

/-- A failing self-hash check stops the walk at the current position. -/
theorem verifyFrom_cons_selffail (he : HashEnv) {y : AuditEvent}
    (ys : List AuditEvent) (prev : Option AuditEvent) (i : Nat)
    (hbad : he.hashBody (rebuildBody y) ≠ y.selfHash) :
    verifyFrom he prev i (y :: ys) = .selfHashMismatch i := by
  simp [verifyFrom, hbad]

/-- A failing linkage check (after a passing self-hash check) stops the walk
at the current position. -/
theorem verifyFrom_cons_linkfail (he : HashEnv) {y : AuditEvent}
    (ys : List AuditEvent) (p : AuditEvent) (i : Nat)
    (hself : he.hashBody (rebuildBody y) = y.selfHash)
    (hbad : y.previousEventHash ≠ he.hashEvent p) :
    verifyFrom he (some p) i (y :: ys) = .linkageBroken i := by
  simp [verifyFrom, hself, hbad]

/-- Destructure a successful verification step on a cons cell. -/
theorem verifyFrom_cons_ok (he : HashEnv) {x : AuditEvent} {xs : List AuditEvent}
    {prev : Option AuditEvent} {i : Nat} {m : Nat}
    (h : verifyFrom he prev i (x :: xs) = .ok m) :
    he.hashBody (rebuildBody x) = x.selfHash ∧
    (∀ p, prev = some p → x.previousEventHash = he.hashEvent p) ∧
    verifyFrom he (some x) (i + 1) xs = .ok m := by
  by_cases h1 : he.hashBody (rebuildBody x) ≠ x.selfHash
  · simp [verifyFrom, h1] at h
  · push_neg at h1
    cases prev with
    | none =>
      refine ⟨h1, by simp, ?_⟩
      simpa [verifyFrom, h1] using h
    | some p =>
      by_cases h2 : x.previousEventHash ≠ he.hashEvent p
      · simp [verifyFrom, h1, h2] at h
      · push_neg at h2
        refine ⟨h1, fun p' hp' => by cases hp'; exact h2, ?_⟩
        simpa [verifyFrom, h1, h2] using h

/-- Rebuild a verification step on a cons cell from its parts. -/
theorem verifyFrom_cons_build (he : HashEnv) {x : AuditEvent} (xs : List AuditEvent)
    (prev : Option AuditEvent) (i : Nat)
    (hself : he.hashBody (rebuildBody x) = x.selfHash)
    (hlink : ∀ p, prev = some p → x.previousEventHash = he.hashEvent p) :
    verifyFrom he prev i (x :: xs) = verifyFrom he (some x) (i + 1) xs := by
  cases prev with
  | none => simp [verifyFrom, hself]
  | some p => simp [verifyFrom, hself, hlink p rfl]

/-- Appending a well-linked, well-hashed event to a verified prefix keeps
verification succeeding and extends the count by one. -/
theorem verifyFrom_ok_append (he : HashEnv) (ev : AuditEvent) :
    ∀ (xs : List AuditEvent) (prev : Option AuditEvent) (i : Nat),
      verifyFrom he prev i xs = .ok (i + xs.length) →
      he.hashBody (rebuildBody ev) = ev.selfHash →
      (∀ p, lastOpt prev xs = some p → ev.previousEventHash = he.hashEvent p) →
      verifyFrom he prev i (xs ++ [ev]) = .ok (i + xs.length + 1) := by
  intro xs
  induction xs with
  | nil =>
    intro prev i _ hself hlink
    simp only [List.nil_append, List.length_nil, Nat.add_zero]
    rw [verifyFrom_cons_build he [] prev i hself (fun p hp => hlink p (by simp [lastOpt, hp]))]
    rfl
  | cons x xs ih =>
    intro prev i hok hself hlink
    obtain ⟨h1, h2, h3⟩ := verifyFrom_cons_ok he hok
    have h3' : verifyFrom he (some x) (i + 1) xs = .ok (i + 1 + xs.length) := by
      rw [h3]; congr 1; simp; omega
    have := ih (some x) (i + 1) h3' hself
      (fun p hp => hlink p (by rw [lastOpt_cons]; exact hp))
    simp only [List.cons_append]
    rw [verifyFrom_cons_build he (xs ++ [ev]) prev i h1 h2, this]
    congr 1
    simp
    omega

/-- `chainOf` over a snoc is one `append`. -/
theorem chainOf_snoc (he : HashEnv) (nodeId pubHex : String)
    (args : List AppendArgs) (a : AppendArgs) :
    chainOf he nodeId pubHex (args ++ [a])
      = appendEvent he nodeId pubHex (chainOf he nodeId pubHex args) a := by
  simp [chainOf, List.foldl_append]

/-- A chain of `n` appends has `n` events. -/
theorem chainOf_length (he : HashEnv) (nodeId pubHex : String) :
    ∀ args : List AppendArgs, (chainOf he nodeId pubHex args).length = args.length := by
  intro args
  induction args using List.reverseRecOn with
  | nil => rfl
  | append_singleton args a ih =>
    rw [chainOf_snoc]
    simp [appendEvent, ih]

/-- Honest chains verify: `verify` on the chain of any append sequence
returns the chain length. -/
theorem verify_chainOf (he : HashEnv) (nodeId pubHex : String) :
    ∀ args : List AppendArgs,
      verifyChain he (chainOf he nodeId pubHex args) = .ok args.length := by
  intro args
  induction args using List.reverseRecOn with
  | nil => rfl
  | append_singleton args a ih =>
    rw [chainOf_snoc]
    have hlen := chainOf_length he nodeId pubHex args
    show verifyFrom he none 0 _ = _
    unfold appendEvent
    have hok : verifyFrom he none 0 (chainOf he nodeId pubHex args)
        = .ok (0 + (chainOf he nodeId pubHex args).length) := by
      have h0 : verifyFrom he none 0 (chainOf he nodeId pubHex args)
          = .ok args.length := ih
      rw [h0, hlen]
      simp
    have := verifyFrom_ok_append he
      (eventOfBody he pubHex (mkBody he nodeId
        (match (chainOf he nodeId pubHex args).getLast? with
         | some prev => he.hashEvent prev
         | none => zeros64) a))
      (chainOf he nodeId pubHex args) none 0
      hok
      (by rw [rebuildBody_eventOfBody]; rfl)
      (by
        intro p hp
        simp only [lastOpt] at hp
        cases hlast : (chainOf he nodeId pubHex args).getLast? with
        | none => rw [hlast] at hp; cases hp
        | some q =>
          rw [hlast] at hp
          cases hp
          show (mkBody he nodeId _ a).previousEventHash = he.hashEvent p
          simp [mkBody, hlast])
    rw [this]
    congr 1
    simp [hlen]

/-- A successful verification walk implies the self-hash and linkage
invariants position by position. -/
theorem verifyFrom_ok_invariants (he : HashEnv) :
    ∀ (xs : List AuditEvent) (prev : Option AuditEvent) (i m : Nat),
      verifyFrom he prev i xs = .ok m →
      (∀ j (hj : j < xs.length),
        (xs.get ⟨j, hj⟩).selfHash = he.hashBody (rebuildBody (xs.get ⟨j, hj⟩))) ∧
      (∀ j (hj : j + 1 < xs.length),
        (xs.get ⟨j + 1, hj⟩).previousEventHash
          = he.hashEvent (xs.get ⟨j, by omega⟩)) ∧
      (∀ p, prev = some p → ∀ hne : 0 < xs.length,
        (xs.get ⟨0, hne⟩).previousEventHash = he.hashEvent p) := by
  intro xs
  induction xs with
  | nil =>
    intro prev i m _
    refine ⟨fun j hj => absurd hj (by simp), fun j hj => absurd hj (by simp),
      fun p _ hne => absurd hne (by simp)⟩
  | cons x xs ih =>
    intro prev i m hok
    obtain ⟨h1, h2, h3⟩ := verifyFrom_cons_ok he hok
    obtain ⟨ih1, ih2, ih3⟩ := ih (some x) (i + 1) m h3
    refine ⟨?_, ?_, ?_⟩
    · intro j hj
      cases j with
      | zero => exact h1.symm
      | succ j' => exact ih1 j' (by simpa using hj)
    · intro j hj
      cases j with
      | zero =>
        show (xs.get ⟨0, by simpa using hj⟩).previousEventHash = he.hashEvent x
        exact ih3 x rfl (by simpa using hj)
      | succ j' => exact ih2 j' (by simpa using hj)
    · intro p hp hne
      exact h2 p hp

/-- Replacing event `k` of a verified list by any event whose rebuilt body
no longer hashes to its stored `self_hash` makes the walk fail with a
self-hash mismatch exactly at position `k`. -/
theorem verifyFrom_tamper_self (he : HashEnv) (ev' : AuditEvent) :
    ∀ (xs : List AuditEvent) (k : Nat) (prev : Option AuditEvent) (i m : Nat),
      k < xs.length →
      verifyFrom he prev i xs = .ok m →
      he.hashBody (rebuildBody ev') ≠ ev'.selfHash →
      verifyFrom he prev i (xs.set k ev') = .selfHashMismatch (i + k) := by
  intro xs
  induction xs with
  | nil => intro k prev i m hk; simp at hk
  | cons x xs ih =>
    intro k prev i m hk hok hne
    obtain ⟨h1, h2, h3⟩ := verifyFrom_cons_ok he hok
    cases k with
    | zero =>
      simp only [List.set_cons_zero]
      rw [verifyFrom_cons_selffail he xs prev i hne]
      simp
    | succ k' =>
      simp only [List.set_cons_succ]
      rw [verifyFrom_cons_build he _ prev i h1 h2]
      rw [ih k' (some x) (i + 1) m (by simpa using hk) h3 hne]
      congr 1
      omega

/-- Replacing event `k` (not the last) of a verified list by an event whose
body still hashes correctly and whose `previous_event_hash` is preserved,
but whose full serialization hashes differently (e.g. a flipped signature
byte), makes the walk fail with broken linkage at position `k + 1` — the
earliest affected check. -/
theorem verifyFrom_tamper_linkage (he : HashEnv) (ev' : AuditEvent) :
    ∀ (xs : List AuditEvent) (k : Nat) (prev : Option AuditEvent) (i m : Nat)
      (hk : k + 1 < xs.length),
      verifyFrom he prev i xs = .ok m →
      he.hashBody (rebuildBody ev') = ev'.selfHash →
      ev'.previousEventHash = (xs.get ⟨k, by omega⟩).previousEventHash →
      he.hashEvent ev' ≠ he.hashEvent (xs.get ⟨k, by omega⟩) →
      verifyFrom he prev i (xs.set k ev') = .linkageBroken (i + k + 1) := by
  intro xs
  induction xs with
  | nil => intro k prev i m hk; simp at hk
  | cons x xs ih =>
    intro k prev i m hk hok hself hprev hne
    obtain ⟨h1, h2, h3⟩ := verifyFrom_cons_ok he hok
    cases k with
    | zero =>
      -- the tampered event replaces the head; the next event's linkage breaks
      cases xs with
      | nil => simp at hk
      | cons y ys =>
        obtain ⟨g1, g2, g3⟩ := verifyFrom_cons_ok he h3
        simp only [List.set_cons_zero]
        rw [verifyFrom_cons_build he _ prev i hself
          (fun p hp => by rw [hprev]; exact h2 p hp)]
        have hylink : y.previousEventHash = he.hashEvent x := g2 x rfl
        have hbad : y.previousEventHash ≠ he.hashEvent ev' := by
          rw [hylink]
          intro hcon
          exact hne hcon.symm
        rw [verifyFrom_cons_linkfail he ys ev' (i + 1) g1 hbad]
    | succ k' =>
      simp only [List.set_cons_succ]
      rw [verifyFrom_cons_build he _ prev i h1 h2]
      rw [ih k' (some x) (i + 1) m (by simpa using hk) h3 hself hprev hne]
      congr 1
      omega

/-- C3 (amended): for every audit chain produced by a sequence of append
operations, `verify` succeeds and returns the chain length; the chain has
one event per append; for every position `i > 0`,
`event[i].previous_event_hash` equals the hash of the full serialization of
`event[i-1]`, and every event's `self_hash` equals the hash of its
canonical body (the event minus `self_hash`, signature and public key).
Replacing any stored event with one whose canonical body no longer hashes
to its stored `self_hash` (any body-field, `self_hash` or
`previous_event_hash` byte flip) makes `verify` fail at exactly that
position; replacing a non-final event with one whose body still checks out
but whose full serialization hashes differently (a signature or public-key
byte flip) makes `verify` fail at the next position — the earliest affected
check. Signature bytes of the final event are not covered: `verify` checks
hashes only (see the counterexample). -/
theorem C3_amended_audit_chain (he : HashEnv) (nodeId pubHex : String)
    (args : List AppendArgs) :
    verifyChain he (chainOf he nodeId pubHex args) = .ok args.length ∧
    (chainOf he nodeId pubHex args).length = args.length ∧
    (∀ j (hj : j + 1 < (chainOf he nodeId pubHex args).length),
      ((chainOf he nodeId pubHex args).get ⟨j + 1, hj⟩).previousEventHash
        = he.hashEvent ((chainOf he nodeId pubHex args).get ⟨j, by omega⟩)) ∧
    (∀ j (hj : j < (chainOf he nodeId pubHex args).length),
      ((chainOf he nodeId pubHex args).get ⟨j, hj⟩).selfHash
        = he.hashBody (rebuildBody ((chainOf he nodeId pubHex args).get ⟨j, hj⟩))) ∧
    (∀ (k : Nat) (ev' : AuditEvent), k < (chainOf he nodeId pubHex args).length →
      he.hashBody (rebuildBody ev') ≠ ev'.selfHash →
      verifyChain he ((chainOf he nodeId pubHex args).set k ev')
        = .selfHashMismatch k) ∧
    (∀ (k : Nat) (ev' : AuditEvent)
        (hk : k + 1 < (chainOf he nodeId pubHex args).length),
      he.hashBody (rebuildBody ev') = ev'.selfHash →
      ev'.previousEventHash
        = ((chainOf he nodeId pubHex args).get ⟨k, by omega⟩).previousEventHash →
      he.hashEvent ev' ≠ he.hashEvent ((chainOf he nodeId pubHex args).get ⟨k, by omega⟩) →
      verifyChain he ((chainOf he nodeId pubHex args).set k ev')
        = .linkageBroken (k + 1)) := by
  have hver := verify_chainOf he nodeId pubHex args
  have hlen := chainOf_length he nodeId pubHex args
  have hok0 : verifyFrom he none 0 (chainOf he nodeId pubHex args)
      = .ok (0 + (chainOf he nodeId pubHex args).length) := by
    have h0 : verifyFrom he none 0 (chainOf he nodeId pubHex args)
        = .ok args.length := hver
    rw [h0, hlen]
    simp
  obtain ⟨inv1, inv2, _⟩ := verifyFrom_ok_invariants he
    (chainOf he nodeId pubHex args) none 0 _ hok0
  refine ⟨hver, hlen, inv2, inv1, ?_, ?_⟩
  · intro k ev' hk hne
    have := verifyFrom_tamper_self he ev' (chainOf he nodeId pubHex args)
      k none 0 _ hk hok0 hne
    simpa using this
  · intro k ev' hk hself hprev hne
    have := verifyFrom_tamper_linkage he ev' (chainOf he nodeId pubHex args)
      k none 0 _ hk hok0 hself hprev hne
    simpa using this

/-- A concrete hash environment for the C3 fixtures (abstract stand-in for
SHA-256 and Ed25519; the parametric theorems above hold for any). -/
def he0 : HashEnv :=
  { hashBody := fun b => b.eventType
    hashEvent := fun ev => ev.eventId ++ ev.signature
    hashJson := fun _ => "h"
    sign := fun s => s ++ "-sig" }

/-- A concrete append argument. -/
def a0 : AppendArgs :=
  { eventId := "id0", timestamp := "t0", workflowId := "w",
    workflowVersion := none, instructionId := none, eventType := "E",
    input := none, output := none, durationMs := 0, details := none }

/-- A second concrete append argument. -/
def a1 : AppendArgs :=
  { eventId := "id1", timestamp := "t1", workflowId := "w",
    workflowVersion := none, instructionId := none, eventType := "F",
    input := none, output := none, durationMs := 0, details := none }

/-- Flip the signature field of an event. -/
def tamperSig (ev : AuditEvent) : AuditEvent := { ev with signature := "flipped" }

/-- C3 counterexample: modifying bytes of the final event's `signature`
(which `verify` never reads: the canonical body excludes it and no later
event links to it) leaves `verify` succeeding with the chain length, so
"modifying any byte of any stored event makes verify fail" is false as
stated. -/
theorem C3_counterexample :
    verifyChain he0 ((chainOf he0 "n" "p" [a0]).map tamperSig) = .ok 1 ∧
    ((chainOf he0 "n" "p" [a0]).map tamperSig).head?.map (fun ev => ev.signature)
      ≠ (chainOf he0 "n" "p" [a0]).head?.map (fun ev => ev.signature) := by
  exact ⟨rfl, by decide⟩

/-- C3 witness: the amended theorem at concrete inputs — a two-append chain
verifies with length 2; tampering event 0's `event_type` is caught at
position 0; tampering event 0's `signature` is caught by the linkage check
at position 1. -/
theorem C3_amended_witness :
    verifyChain he0 (chainOf he0 "n" "p" [a0, a1]) = .ok 2 ∧
    verifyChain he0 ((chainOf he0 "n" "p" [a0, a1]).set 0
        { (chainOf he0 "n" "p" [a0, a1]).get ⟨0, by decide⟩ with eventType := "X" })
      = .selfHashMismatch 0 ∧
    verifyChain he0 ((chainOf he0 "n" "p" [a0, a1]).set 0
        { (chainOf he0 "n" "p" [a0, a1]).get ⟨0, by decide⟩ with signature := "zz" })
      = .linkageBroken 1 :=
  ⟨(C3_amended_audit_chain he0 "n" "p" [a0, a1]).1,
   (C3_amended_audit_chain he0 "n" "p" [a0, a1]).2.2.2.2.1 0
     { (chainOf he0 "n" "p" [a0, a1]).get ⟨0, by decide⟩ with eventType := "X" }
     (by decide) (by decide),
   (C3_amended_audit_chain he0 "n" "p" [a0, a1]).2.2.2.2.2 0
     { (chainOf he0 "n" "p" [a0, a1]).get ⟨0, by decide⟩ with signature := "zz" }
     (by decide) (by decide) (by decide) (by decide)⟩

end Eyeflow
